import Mathlib

/-!
Shallow embedding of the Maiu operation-ledger engine.

The Postgres state (tables of supabase/schema.sql) is modelled as a `DB`
structure of lists; the plpgsql functions of supabase/rpc.sql
(`create_operation`, `update_operation`, `apply_variant_price_from_date`)
become functions `DB → Except String (DB × _)`: a raised exception aborts
the whole transaction, so an `Except.error` result leaves the caller's
state untouched.  `timestamptz` values are modelled as `Int`, `uuid`s as
`Nat` drawn from a `nextId` counter, nullable columns as `Option`.
The repository also holds a second, divergent version of
`create_operation`/`update_operation` (src/unnamed/part_001); its
create path is embedded separately with an `M` suffix.
-/

namespace Maiu

/-- The `operation_type` enum of supabase/schema.sql. -/
inductive OpType
  | inbound
  | transfer
  | ship_blogger
  | return_blogger
  | sale
  | sale_return
  | writeoff
  | adjustment
deriving DecidableEq, Repr

/-- The `location_type` enum of supabase/schema.sql. -/
inductive LocType
  | sales
  | promo
  | blogger
  | sold
  | scrap
  | other
deriving DecidableEq, Repr

/-- The `mark_status` enum of supabase/schema.sql. -/
inductive MarkStatus
  | in_stock
  | at_blogger
  | sold
  | returned
  | written_off
  | unknown
deriving DecidableEq, Repr

/-- A row of `public.locations`. -/
structure Location where
  id : Nat
  user_id : Nat
  name : String
  type : LocType
  counterparty_id : Option Nat
deriving DecidableEq, Repr

/-- A row of `public.counterparties` (only the fields the rpc functions read). -/
structure Counterparty where
  id : Nat
  user_id : Nat
  name : String
deriving DecidableEq, Repr

/-- A row of `public.promo_codes` (only the fields the rpc functions read). -/
structure PromoCode where
  id : Nat
  user_id : Nat
  code : String
  discount_type : String
  discount_value : Int
deriving DecidableEq, Repr

/-- A row of `public.product_variants` (only the fields the rpc functions read);
`unit_price` and `unit_cost` are `integer not null` in the schema. -/
structure Variant where
  id : Nat
  user_id : Nat
  unit_price : Int
  unit_cost : Int
  is_marked : Bool
deriving DecidableEq, Repr

/-- A row of `public.operations`. -/
structure Operation where
  id : Nat
  user_id : Nat
  type : OpType
  occurred_at : Int
  from_location_id : Option Nat
  to_location_id : Option Nat
  counterparty_id : Option Nat
  promo_code_id : Option Nat
  promo_code_snapshot : Option String
  discount_type_snapshot : Option String
  discount_value_snapshot : Option Int
  sale_channel : Option String
  city : Option String
  delivery_cost : Option Int
  delivery_service : Option String
  tracking_number : Option String
  note : Option String
deriving DecidableEq, Repr

/-- A row of `public.operation_lines`. -/
structure OperationLine where
  id : Nat
  operation_id : Nat
  variant_id : Nat
  qty : Int
  unit_price_snapshot : Option Int
  unit_cost_snapshot : Option Int
  line_note : Option String
deriving DecidableEq, Repr

/-- A row of `public.stock_movements`. -/
structure StockMovement where
  user_id : Nat
  occurred_at : Int
  operation_id : Nat
  operation_line_id : Nat
  variant_id : Nat
  location_id : Nat
  qty_delta : Int
  unit_cost_snapshot : Option Int
  unit_price_snapshot : Option Int
deriving DecidableEq, Repr

/-- A row of `public.mark_codes`; `(user_id, code)` is unique in the schema. -/
structure MarkCode where
  user_id : Nat
  code : String
  variant_id : Option Nat
  current_location_id : Option Nat
  status : MarkStatus
  last_operation_id : Option Nat
  updated_at : Int
deriving DecidableEq, Repr

/-- A row of `public.product_variant_price_history`;
`(user_id, variant_id, effective_at)` is unique (the rpc functions upsert on it). -/
structure PriceHistoryEntry where
  user_id : Nat
  variant_id : Nat
  unit_price : Int
  effective_at : Int
deriving DecidableEq, Repr

/-- The database state seen by the rpc functions.  `nextId` models
`gen_random_uuid()`: fresh ids are drawn from it. -/
structure DB where
  nextId : Nat
  locations : List Location
  counterparties : List Counterparty
  promo_codes : List PromoCode
  variants : List Variant
  operations : List Operation
  operation_lines : List OperationLine
  stock_movements : List StockMovement
  mark_codes : List MarkCode
  price_history : List PriceHistoryEntry
deriving DecidableEq, Repr

/-- One element of the `lines` array of the jsonb payload.  Absent json keys
are `none`; `mark_codes` models `coalesce(v_line->'mark_codes','[]')`. -/
structure LinePayload where
  variant_id : Nat
  qty : Option Int
  unit_price_snapshot : Option Int
  qty_delta : Option Int
  line_note : Option String
  marking_not_handled : Option Bool
  mark_codes : Option (List String)
deriving DecidableEq, Repr

/-- The jsonb payload of `create_operation` / `update_operation`.  The
`lines must be an array` check is discharged by typing: `lines` is a list. -/
structure Payload where
  type : OpType
  occurred_at : Option Int
  from_location_id : Option Nat
  to_location_id : Option Nat
  counterparty_id : Option Nat
  promo_code_id : Option Nat
  sale_channel : Option String
  city : Option String
  delivery_cost : Option Int
  delivery_service : Option String
  tracking_number : Option String
  note : Option String
  lines : List LinePayload
deriving DecidableEq, Repr

/-- `select id from locations where user_id = u and type = lt limit 1`. -/
def findLocationByType (locs : List Location) (u : Nat) (lt : LocType) : Option Location :=
  locs.find? (fun l => decide (l.user_id = u ∧ l.type = lt))

/-- rpc.sql lines 68-92: look up any blogger-typed location of the account,
creating one named `Блогер` when none exists. -/
def getOrCreateBloggerLocation (db : DB) (u : Nat) : DB × Nat :=
  match findLocationByType db.locations u LocType.blogger with
  | some l => (db, l.id)
  | none =>
    let loc : Location := ⟨db.nextId, u, "Блогер", LocType.blogger, none⟩
    ({ db with nextId := db.nextId + 1, locations := db.locations ++ [loc] }, loc.id)

/-- rpc.sql lines 68-105: type-directed defaulting of the missing
source/destination locations (create_operation and update_operation share it). -/
def resolveEndpoints (db : DB) (u : Nat) (t : OpType) (fl tl : Option Nat) :
    DB × Option Nat × Option Nat :=
  let s1 : DB × Option Nat :=
    if t = OpType.ship_blogger ∧ tl = none then
      let r := getOrCreateBloggerLocation db u
      (r.1, some r.2)
    else (db, tl)
  let s2 : DB × Option Nat :=
    if t = OpType.return_blogger ∧ fl = none then
      let r := getOrCreateBloggerLocation s1.1 u
      (r.1, some r.2)
    else (s1.1, fl)
  let db2 := s2.1
  let tl1 := s1.2
  let fl1 := s2.2
  let tl2 := if t = OpType.sale ∧ tl1 = none then
      (findLocationByType db2.locations u LocType.sold).map (fun l => l.id) else tl1
  let tl3 := if t = OpType.writeoff ∧ tl2 = none then
      (findLocationByType db2.locations u LocType.scrap).map (fun l => l.id) else tl2
  let tl4 := if t = OpType.sale_return ∧ tl3 = none then
      (findLocationByType db2.locations u LocType.sales).map (fun l => l.id) else tl3
  let fl2 := if t = OpType.sale_return ∧ fl1 = none then
      (findLocationByType db2.locations u LocType.sold).map (fun l => l.id) else fl1
  (db2, fl2, tl4)

/-- The entry `order by effective_at desc limit 1` would return from a list of
history rows (the unique row with the greatest effective timestamp). -/
def bestEntry : List PriceHistoryEntry → Option PriceHistoryEntry
  | [] => none
  | h :: rest =>
    match bestEntry rest with
    | none => some h
    | some b => if h.effective_at < b.effective_at then some b else some h

/-- rpc.sql lines 167-175: the price of the latest history entry of
`(u, vid)` whose effective timestamp is at or before `t`. -/
def latestHistoryPrice (hist : List PriceHistoryEntry) (u vid : Nat) (t : Int) : Option Int :=
  (bestEntry (hist.filter
    (fun h => decide (h.user_id = u ∧ h.variant_id = vid ∧ h.effective_at ≤ t)))).map
    (fun h => h.unit_price)

/-- rpc.sql lines 165-177: `coalesce(explicit override, history price, live price)`. -/
def resolvePrice (hist : List PriceHistoryEntry) (u vid : Nat) (occ : Int)
    (overridePrice : Option Int) (livePrice : Int) : Int :=
  match overridePrice with
  | some p => p
  | none =>
    match latestHistoryPrice hist u vid occ with
    | some p => p
    | none => livePrice

/-- Postgres `trim(both ' ' from s)`. -/
def trimSpaces (s : String) : String :=
  ⟨((s.data.dropWhile (fun c => c = ' ')).reverse.dropWhile (fun c => c = ' ')).reverse⟩

/-- rpc.sql lines 181-183: append the deferred-marking marker to the line note. -/
def markDeferredNote (note : Option String) (deferred : Bool) : Option String :=
  if deferred then some (trimSpaces ((note.getD "") ++ " [MARKING_NOT_HANDLED]")) else note

/-- The operation types that post a balanced pair (rpc.sql line 212). -/
def twoPostingTypes : List OpType :=
  [OpType.transfer, OpType.ship_blogger, OpType.return_blogger,
   OpType.sale, OpType.sale_return, OpType.writeoff]

/-- rpc.sql lines 201-246: the stock postings one line emits, keyed by
operation type; errors mirror the raised exceptions. -/
def lineMovements (u : Nat) (occ : Int) (opId lineId vid : Nat) (t : OpType)
    (fl tl : Option Nat) (qty cost price : Int) (qtyDelta : Option Int) :
    Except String (List StockMovement) :=
  if t = OpType.inbound then
    match tl with
    | none => .error "to_location_id is required for inbound"
    | some l => .ok [⟨u, occ, opId, lineId, vid, l, qty, some cost, some price⟩]
  else if t ∈ twoPostingTypes then
    match fl, tl with
    | some f, some l =>
      .ok [⟨u, occ, opId, lineId, vid, f, -qty, some cost, some price⟩,
           ⟨u, occ, opId, lineId, vid, l, qty, some cost, some price⟩]
    | _, _ => .error "from_location_id and to_location_id are required for this operation type"
  else if t = OpType.adjustment then
    let d := qtyDelta.getD qty
    if d = 0 then .error "qty_delta must not be 0 for adjustment"
    else
      match tl, fl with
      | some l, _ => .ok [⟨u, occ, opId, lineId, vid, l, d, some cost, some price⟩]
      | none, some l => .ok [⟨u, occ, opId, lineId, vid, l, d, some cost, some price⟩]
      | none, none => .error "location_id is required for adjustment"
  else .ok []

/-- rpc.sql lines 266-281: resulting mark status and location by operation type. -/
def markStatusFor (t : OpType) (fl tl : Option Nat) : MarkStatus × Option Nat :=
  if t = OpType.ship_blogger then (MarkStatus.at_blogger, tl)
  else if t = OpType.return_blogger then (MarkStatus.in_stock, tl)
  else if t = OpType.sale then (MarkStatus.sold, tl)
  else if t = OpType.writeoff then (MarkStatus.written_off, tl)
  else (MarkStatus.in_stock, tl.orElse (fun _ => fl))

/-- rpc.sql lines 285-306: `insert ... on conflict (user_id, code) do update`. -/
def upsertMarkCode (mcs : List MarkCode) (mc : MarkCode) : List MarkCode :=
  if mcs.any (fun m => decide (m.user_id = mc.user_id ∧ m.code = mc.code)) then
    mcs.map (fun m =>
      if m.user_id = mc.user_id ∧ m.code = mc.code then
        { m with variant_id := mc.variant_id, current_location_id := mc.current_location_id,
                 status := mc.status, last_operation_id := mc.last_operation_id,
                 updated_at := mc.updated_at }
      else m)
  else mcs ++ [mc]

/-- rpc.sql lines 248-308 (create path): serialized-unit handling for one line;
the deferred flag skips validation and transition entirely. -/
def lineMarks (u : Nat) (nowT : Int) (opId vid : Nat) (t : OpType) (fl tl : Option Nat)
    (marked deferred : Bool) (codes : List String) (qty : Int) (mcs : List MarkCode) :
    Except String (List MarkCode) :=
  if marked then
    if deferred then .ok mcs
    else if (codes.length : Int) ≠ qty then .error "mark codes count must equal qty"
    else if ¬ codes.Nodup then .error "mark codes must be unique"
    else
      let r := markStatusFor t fl tl
      .ok (codes.foldl
        (fun acc c => upsertMarkCode acc ⟨u, c, some vid, r.2, r.1, some opId, nowT⟩) mcs)
  else .ok mcs

/-- rpc.sql lines 147-309: processing of one element of the `lines` array of
`create_operation` (line insert, postings, serialized units). -/
def processLine (u : Nat) (nowT occ : Int) (t : OpType) (fl tl : Option Nat) (opId : Nat)
    (db : DB) (lp : LinePayload) : Except String DB :=
  let qty := lp.qty.getD 0
  if qty ≤ 0 then .error "qty must be > 0"
  else
    match db.variants.find? (fun v => decide (v.id = lp.variant_id ∧ v.user_id = u)) with
    | none => .error "variant not found"
    | some v =>
      let cost := v.unit_cost
      let price := resolvePrice db.price_history u lp.variant_id occ lp.unit_price_snapshot v.unit_price
      let deferred := lp.marking_not_handled.getD false
      let note := markDeferredNote lp.line_note deferred
      let lineId := db.nextId
      let line : OperationLine := ⟨lineId, opId, lp.variant_id, qty, some price, some cost, note⟩
      match lineMovements u occ opId lineId lp.variant_id t fl tl qty cost price lp.qty_delta with
      | .error e => .error e
      | .ok movs =>
        match lineMarks u nowT opId lp.variant_id t fl tl v.is_marked deferred
            (lp.mark_codes.getD []) qty db.mark_codes with
        | .error e => .error e
        | .ok mcs =>
          .ok { db with nextId := lineId + 1,
                        operation_lines := db.operation_lines ++ [line],
                        stock_movements := db.stock_movements ++ movs,
                        mark_codes := mcs }

/-- The `for v_line in ... loop` of `create_operation`. -/
def processLines (u : Nat) (nowT occ : Int) (t : OpType) (fl tl : Option Nat) (opId : Nat) :
    DB → List LinePayload → Except String DB
  | db, [] => .ok db
  | db, lp :: rest =>
    match processLine u nowT occ t fl tl opId db lp with
    | .error e => .error e
    | .ok db1 => processLines u nowT occ t fl tl opId db1 rest

/-- The promo-code snapshot triple selected at rpc.sql lines 61-66
(`select into` leaves the targets null when no row matches). -/
def promoSnapshot (db : DB) (u : Nat) (promo : Option Nat) :
    Option String × Option String × Option Int :=
  match promo with
  | none => (none, none, none)
  | some pid =>
    match db.promo_codes.find? (fun pc => decide (pc.id = pid ∧ pc.user_id = u)) with
    | none => (none, none, none)
    | some pc => (some pc.code, some pc.discount_type, some pc.discount_value)

/-- rpc.sql lines 107-141: the state right after the header row is inserted
(endpoints resolved, promo snapshot frozen, fresh operation id drawn). -/
def createHeaderState (db : DB) (u : Nat) (nowT : Int) (p : Payload) : DB :=
  let occ := p.occurred_at.getD nowT
  let snap := promoSnapshot db u p.promo_code_id
  let r := resolveEndpoints db u p.type p.from_location_id p.to_location_id
  let db1 := r.1
  let opId := db1.nextId
  let op : Operation :=
    ⟨opId, u, p.type, occ, r.2.1, r.2.2, p.counterparty_id, p.promo_code_id,
     snap.1, snap.2.1, snap.2.2, p.sale_channel, p.city, p.delivery_cost,
     p.delivery_service, p.tracking_number, p.note⟩
  { db1 with nextId := opId + 1, operations := db1.operations ++ [op] }

/-- supabase/rpc.sql lines 1-313: `create_operation(payload)`.  `uid` is
`auth.uid()`, `nowT` is `now()`; returns the new state and the operation id. -/
def create_operation (db : DB) (uid : Option Nat) (nowT : Int) (p : Payload) :
    Except String (DB × Nat) :=
  match uid with
  | none => .error "Not authenticated"
  | some u =>
    match processLines u nowT (p.occurred_at.getD nowT) p.type
        (resolveEndpoints db u p.type p.from_location_id p.to_location_id).2.1
        (resolveEndpoints db u p.type p.from_location_id p.to_location_id).2.2
        (resolveEndpoints db u p.type p.from_location_id p.to_location_id).1.nextId
        (createHeaderState db u nowT p) p.lines with
    | .error e => .error e
    | .ok db3 =>
      .ok (db3, (resolveEndpoints db u p.type p.from_location_id p.to_location_id).1.nextId)

/-- The state after a `create_operation` transaction: the new state on commit,
the unchanged state on rollback. -/
def applyCreate (db : DB) (uid : Option Nat) (nowT : Int) (p : Payload) : DB :=
  match create_operation db uid nowT p with
  | .ok r => r.1
  | .error _ => db

/-- rpc.sql lines 559-617 (update path): serialized-unit handling for one line
of `update_operation`; the whole block is guarded by
`v_variant_marked and not v_marking_not_handled`. -/
def lineMarksU (u : Nat) (nowT : Int) (opId vid : Nat) (t : OpType) (fl tl : Option Nat)
    (marked deferred : Bool) (codes : List String) (qty : Int) (mcs : List MarkCode) :
    Except String (List MarkCode) :=
  if marked ∧ ¬ deferred then
    if (codes.length : Int) ≠ qty then .error "mark codes count must equal qty"
    else if ¬ codes.Nodup then .error "mark codes must be unique"
    else
      let r := markStatusFor t fl tl
      .ok (codes.foldl
        (fun acc c => upsertMarkCode acc ⟨u, c, some vid, r.2, r.1, some opId, nowT⟩) mcs)
  else .ok mcs

/-- rpc.sql lines 454-618: processing of one element of the `lines` array of
`update_operation`; unlike the create path it raises on any serialized,
non-deferred line (line 488-490). -/
def processLineU (u : Nat) (nowT occ : Int) (t : OpType) (fl tl : Option Nat) (opId : Nat)
    (db : DB) (lp : LinePayload) : Except String DB :=
  let qty := lp.qty.getD 0
  if qty ≤ 0 then .error "qty must be > 0"
  else
    match db.variants.find? (fun v => decide (v.id = lp.variant_id ∧ v.user_id = u)) with
    | none => .error "variant not found"
    | some v =>
      let cost := v.unit_cost
      let price := resolvePrice db.price_history u lp.variant_id occ lp.unit_price_snapshot v.unit_price
      let deferred := lp.marking_not_handled.getD false
      if v.is_marked ∧ ¬ deferred then
        .error "editing marked operations is not supported; enable marking_not_handled"
      else
        let note := markDeferredNote lp.line_note deferred
        let lineId := db.nextId
        let line : OperationLine := ⟨lineId, opId, lp.variant_id, qty, some price, some cost, note⟩
        match lineMovements u occ opId lineId lp.variant_id t fl tl qty cost price lp.qty_delta with
        | .error e => .error e
        | .ok movs =>
          match lineMarksU u nowT opId lp.variant_id t fl tl v.is_marked deferred
              (lp.mark_codes.getD []) qty db.mark_codes with
          | .error e => .error e
          | .ok mcs =>
            .ok { db with nextId := lineId + 1,
                          operation_lines := db.operation_lines ++ [line],
                          stock_movements := db.stock_movements ++ movs,
                          mark_codes := mcs }

/-- The `for v_line in ... loop` of `update_operation`. -/
def processLinesU (u : Nat) (nowT occ : Int) (t : OpType) (fl tl : Option Nat) (opId : Nat) :
    DB → List LinePayload → Except String DB
  | db, [] => .ok db
  | db, lp :: rest =>
    match processLineU u nowT occ t fl tl opId db lp with
    | .error e => .error e
    | .ok db1 => processLinesU u nowT occ t fl tl opId db1 rest

/-- rpc.sql lines 427-448: the state after the header row is rewritten and the
old postings, lines and last-touched serialized units are deleted. -/
def updateBaseState (db : DB) (u : Nat) (nowT : Int) (opId : Nat) (p : Payload) : DB :=
  let occ := p.occurred_at.getD nowT
  let snap := promoSnapshot db u p.promo_code_id
  let r := resolveEndpoints db u p.type p.from_location_id p.to_location_id
  let db1 := r.1
  let db2 := { db1 with operations := db1.operations.map (fun o : Operation =>
    if o.id = opId ∧ o.user_id = u then
      { o with type := p.type, occurred_at := occ, from_location_id := r.2.1,
               to_location_id := r.2.2, counterparty_id := p.counterparty_id,
               promo_code_id := p.promo_code_id, promo_code_snapshot := snap.1,
               discount_type_snapshot := snap.2.1, discount_value_snapshot := snap.2.2,
               sale_channel := p.sale_channel, city := p.city,
               delivery_cost := p.delivery_cost, delivery_service := p.delivery_service,
               tracking_number := p.tracking_number, note := p.note }
    else o) }
  { db2 with
    stock_movements := db2.stock_movements.filter (fun m => decide (¬ m.operation_id = opId)),
    operation_lines := db2.operation_lines.filter (fun l => decide (¬ l.operation_id = opId)),
    mark_codes := db2.mark_codes.filter (fun m => decide (¬ m.last_operation_id = some opId)) }

/-- supabase/rpc.sql lines 315-622: `update_operation(p_operation_id, payload)`:
ownership check, endpoint re-resolution, header update, destructive delete of
all derived state, then the create sequence with the new payload. -/
def update_operation (db : DB) (uid : Option Nat) (nowT : Int) (opId : Nat) (p : Payload) :
    Except String (DB × Nat) :=
  match uid with
  | none => .error "Not authenticated"
  | some u =>
    if ¬ db.operations.any (fun o => decide (o.id = opId ∧ o.user_id = u)) then
      .error "operation not found"
    else
      match processLinesU u nowT (p.occurred_at.getD nowT) p.type
          (resolveEndpoints db u p.type p.from_location_id p.to_location_id).2.1
          (resolveEndpoints db u p.type p.from_location_id p.to_location_id).2.2
          opId (updateBaseState db u nowT opId p) p.lines with
      | .error e => .error e
      | .ok db4 => .ok (db4, opId)

/-- The state after an `update_operation` transaction: the new state on commit,
the unchanged state on rollback. -/
def applyUpdate (db : DB) (uid : Option Nat) (nowT : Int) (opId : Nat) (p : Payload) : DB :=
  match update_operation db uid nowT opId p with
  | .ok r => r.1
  | .error _ => db

/-- The epoch timestamp `'1900-01-01 00:00:00+00'` used to seed price history
(rpc.sql line 683), in seconds relative to the Unix epoch. -/
def epochTs : Int := -2208988800

/-- The jsonb object returned by `apply_variant_price_from_date`. -/
structure RepriceResult where
  variant_id : Nat
  unit_price : Int
  effective_at : Int
  recalculated_lines : Nat
  recalculated_movements : Nat
deriving DecidableEq, Repr

/-- rpc.sql lines 688-700: `insert into product_variant_price_history ...
on conflict (user_id, variant_id, effective_at) do update set unit_price`. -/
def upsertHistory (hist : List PriceHistoryEntry) (u vid : Nat) (price : Int) (t : Int) :
    List PriceHistoryEntry :=
  if hist.any (fun h => decide (h.user_id = u ∧ h.variant_id = vid ∧ h.effective_at = t)) then
    hist.map (fun h =>
      if h.user_id = u ∧ h.variant_id = vid ∧ h.effective_at = t then
        { h with unit_price := price }
      else h)
  else hist ++ [⟨u, vid, price, t⟩]

/-- The join condition of the snapshot-rewrite at rpc.sql lines 702-717: the
line belongs to the variant and to an operation of the caller occurring at or
after the effective timestamp (operation ids are unique, so `find?` is the
join). -/
def lineRepriceCond (ops : List Operation) (u vid : Nat) (T : Int) (ol : OperationLine) : Bool :=
  decide (ol.variant_id = vid) &&
    (ops.find? (fun o => decide (o.id = ol.operation_id ∧ o.user_id = u ∧ T ≤ o.occurred_at))).isSome

/-- rpc.sql lines 702-717: recompute one line's price snapshot from the (new)
history when the join matches; the lateral subquery is an inner join, so a
line with no resolvable history entry is left untouched. -/
def lineRepriceUpdate (ops : List Operation) (hist : List PriceHistoryEntry)
    (u vid : Nat) (T : Int) (ol : OperationLine) : OperationLine :=
  if ol.variant_id = vid then
    match ops.find? (fun o => decide (o.id = ol.operation_id ∧ o.user_id = u ∧ T ≤ o.occurred_at)) with
    | some o =>
      match latestHistoryPrice hist u vid o.occurred_at with
      | some pr => { ol with unit_price_snapshot := some pr }
      | none => ol
    | none => ol
  else ol

/-- The join condition of the posting-rewrite at rpc.sql lines 721-737. -/
def movementRepriceCond (ops : List Operation) (u vid : Nat) (T : Int) (sm : StockMovement) : Bool :=
  decide (sm.variant_id = vid ∧ sm.user_id = u) &&
    (ops.find? (fun o => decide (o.id = sm.operation_id ∧ o.user_id = u ∧ T ≤ o.occurred_at))).isSome

/-- rpc.sql lines 721-737: recompute one posting's price snapshot. -/
def movementRepriceUpdate (ops : List Operation) (hist : List PriceHistoryEntry)
    (u vid : Nat) (T : Int) (sm : StockMovement) : StockMovement :=
  if sm.variant_id = vid ∧ sm.user_id = u then
    match ops.find? (fun o => decide (o.id = sm.operation_id ∧ o.user_id = u ∧ T ≤ o.occurred_at)) with
    | some o =>
      match latestHistoryPrice hist u vid o.occurred_at with
      | some pr => { sm with unit_price_snapshot := some pr }
      | none => sm
    | none => sm
  else sm

/-- supabase/rpc.sql lines 624-763: `apply_variant_price_from_date(variant, price,
effective_at)`: seed empty history at the epoch, upsert the new entry, rewrite
line and posting snapshots dated at or after the effective timestamp, refresh
the variant's cached price, and return the recalculation counts. -/
def apply_variant_price_from_date (db : DB) (uid : Option Nat) (nowT : Int)
    (pVariantId : Option Nat) (pUnitPrice : Option Int) (pEffectiveAt : Option Int) :
    Except String (DB × RepriceResult) :=
  match uid with
  | none => .error "Not authenticated"
  | some u =>
    match pVariantId with
    | none => .error "variant_id is required"
    | some vid =>
      match pUnitPrice with
      | none => .error "unit_price must be >= 0"
      | some price =>
        if price < 0 then .error "unit_price must be >= 0"
        else
          match pEffectiveAt with
          | none => .error "effective_at is required"
          | some T =>
            match db.variants.find? (fun v => decide (v.id = vid ∧ v.user_id = u)) with
            | none => .error "variant not found"
            | some v =>
              let hist1 :=
                if db.price_history.any (fun h => decide (h.user_id = u ∧ h.variant_id = vid)) then
                  db.price_history
                else db.price_history ++ [⟨u, vid, v.unit_price, epochTs⟩]
              let hist2 := upsertHistory hist1 u vid price T
              let cntL := db.operation_lines.countP (lineRepriceCond db.operations u vid T)
              let newLines := db.operation_lines.map (lineRepriceUpdate db.operations hist2 u vid T)
              let cntM := db.stock_movements.countP (movementRepriceCond db.operations u vid T)
              let newMovs := db.stock_movements.map (movementRepriceUpdate db.operations hist2 u vid T)
              let nowPrice := latestHistoryPrice hist2 u vid nowT
              let newVariants := db.variants.map (fun w =>
                if w.id = vid ∧ w.user_id = u then
                  { w with unit_price := nowPrice.getD w.unit_price }
                else w)
              .ok ({ db with price_history := hist2, operation_lines := newLines,
                             stock_movements := newMovs, variants := newVariants },
                   ⟨vid, price, T, cntL, cntM⟩)

/-- src/unnamed/part_001 lines 68-87: the divergent ship-to-blogger resolution:
a counterparty is mandatory, the blogger location is looked up per
counterparty, and a fresh one is named after the counterparty. -/
def resolveShipBloggerDestM (db : DB) (u : Nat) (tl cp : Option Nat) :
    Except String (DB × Option Nat) :=
  match cp with
  | none => .error "counterparty_id is required for ship_blogger"
  | some c =>
    match tl with
    | some l => .ok (db, some l)
    | none =>
      match db.locations.find? (fun l =>
          decide (l.user_id = u ∧ l.type = LocType.blogger ∧ l.counterparty_id = some c)) with
      | some l => .ok (db, some l.id)
      | none =>
        let nm := (db.counterparties.find? (fun k => decide (k.id = c))).map (fun k => k.name)
        let loc : Location :=
          ⟨db.nextId, u, "Блогер: " ++ nm.getD "Без имени", LocType.blogger, some c⟩
        .ok ({ db with nextId := db.nextId + 1, locations := db.locations ++ [loc] },
             some loc.id)

/-- src/unnamed/part_001 lines 68-98: endpoint defaulting of the part_001
version of `create_operation` (no return-from-blogger defaulting there). -/
def resolveEndpointsM (db : DB) (u : Nat) (t : OpType) (fl tl cp : Option Nat) :
    Except String (DB × Option Nat × Option Nat) :=
  match (if t = OpType.ship_blogger then resolveShipBloggerDestM db u tl cp
         else .ok (db, tl)) with
  | .error e => .error e
  | .ok s1 =>
    let db1 := s1.1
    let tl1 := s1.2
    let tl2 := if t = OpType.sale ∧ tl1 = none then
        (findLocationByType db1.locations u LocType.sold).map (fun l => l.id) else tl1
    let tl3 := if t = OpType.writeoff ∧ tl2 = none then
        (findLocationByType db1.locations u LocType.scrap).map (fun l => l.id) else tl2
    let tl4 := if t = OpType.sale_return ∧ tl3 = none then
        (findLocationByType db1.locations u LocType.sales).map (fun l => l.id) else tl3
    let fl2 := if t = OpType.sale_return ∧ fl = none then
        (findLocationByType db1.locations u LocType.sold).map (fun l => l.id) else fl
    .ok (db1, fl2, tl4)

/-- src/unnamed/part_001 lines 183-225: the stock postings of one line in the
part_001 version (no zero-delta rejection for adjustments there). -/
def lineMovementsM (u : Nat) (occ : Int) (opId lineId vid : Nat) (t : OpType)
    (fl tl : Option Nat) (qty cost price : Int) (qtyDelta : Option Int) :
    Except String (List StockMovement) :=
  if t = OpType.inbound then
    match tl with
    | none => .error "to_location_id is required for inbound"
    | some l => .ok [⟨u, occ, opId, lineId, vid, l, qty, some cost, some price⟩]
  else if t ∈ twoPostingTypes then
    match fl, tl with
    | some f, some l =>
      .ok [⟨u, occ, opId, lineId, vid, f, -qty, some cost, some price⟩,
           ⟨u, occ, opId, lineId, vid, l, qty, some cost, some price⟩]
    | _, _ => .error "from_location_id and to_location_id are required for this operation type"
  else if t = OpType.adjustment then
    let d := qtyDelta.getD qty
    match tl, fl with
    | some l, _ => .ok [⟨u, occ, opId, lineId, vid, l, d, some cost, some price⟩]
    | none, some l => .ok [⟨u, occ, opId, lineId, vid, l, d, some cost, some price⟩]
    | none, none => .error "location_id is required for adjustment"
  else .ok []

/-- src/unnamed/part_001 lines 141-288: one line of the part_001 create path;
the price snapshot is `coalesce(override, live price)` with no history lookup. -/
def processLineM (u : Nat) (nowT occ : Int) (t : OpType) (fl tl : Option Nat) (opId : Nat)
    (db : DB) (lp : LinePayload) : Except String DB :=
  let qty := lp.qty.getD 0
  if qty ≤ 0 then .error "qty must be > 0"
  else
    match db.variants.find? (fun v => decide (v.id = lp.variant_id ∧ v.user_id = u)) with
    | none => .error "variant not found"
    | some v =>
      let cost := v.unit_cost
      let price := lp.unit_price_snapshot.getD v.unit_price
      let deferred := lp.marking_not_handled.getD false
      let note := markDeferredNote lp.line_note deferred
      let lineId := db.nextId
      let line : OperationLine := ⟨lineId, opId, lp.variant_id, qty, some price, some cost, note⟩
      match lineMovementsM u occ opId lineId lp.variant_id t fl tl qty cost price lp.qty_delta with
      | .error e => .error e
      | .ok movs =>
        match lineMarks u nowT opId lp.variant_id t fl tl v.is_marked deferred
            (lp.mark_codes.getD []) qty db.mark_codes with
        | .error e => .error e
        | .ok mcs =>
          .ok { db with nextId := lineId + 1,
                        operation_lines := db.operation_lines ++ [line],
                        stock_movements := db.stock_movements ++ movs,
                        mark_codes := mcs }

/-- The line loop of the part_001 create path. -/
def processLinesM (u : Nat) (nowT occ : Int) (t : OpType) (fl tl : Option Nat) (opId : Nat) :
    DB → List LinePayload → Except String DB
  | db, [] => .ok db
  | db, lp :: rest =>
    match processLineM u nowT occ t fl tl opId db lp with
    | .error e => .error e
    | .ok db1 => processLinesM u nowT occ t fl tl opId db1 rest

/-- src/unnamed/part_001 lines 1-292: the divergent `create_operation` version. -/
def create_operationM (db : DB) (uid : Option Nat) (nowT : Int) (p : Payload) :
    Except String (DB × Nat) :=
  match uid with
  | none => .error "Not authenticated"
  | some u =>
    let occ := p.occurred_at.getD nowT
    let snap := promoSnapshot db u p.promo_code_id
    match resolveEndpointsM db u p.type p.from_location_id p.to_location_id p.counterparty_id with
    | .error e => .error e
    | .ok r =>
      let db1 := r.1
      let fl := r.2.1
      let tl := r.2.2
      let opId := db1.nextId
      let op : Operation :=
        ⟨opId, u, p.type, occ, fl, tl, p.counterparty_id, p.promo_code_id,
         snap.1, snap.2.1, snap.2.2, p.sale_channel, p.city, p.delivery_cost,
         p.delivery_service, p.tracking_number, p.note⟩
      let db2 := { db1 with nextId := opId + 1, operations := db1.operations ++ [op] }
      match processLinesM u nowT occ p.type fl tl opId db2 p.lines with
      | .error e => .error e
      | .ok db3 => .ok (db3, opId)

/-- The `(user_id, code)` key column pair of `mark_codes`. -/
def markKeys (mcs : List MarkCode) : List (Nat × String) :=
  mcs.map (fun m => (m.user_id, m.code))

/-- The schema's `unique (user_id, code)` constraint on `mark_codes`. -/
def MarkKeysNodup (mcs : List MarkCode) : Prop :=
  (markKeys mcs).Nodup

/-- Primary-key uniqueness of `operations.id`. -/
def OpIdsNodup (ops : List Operation) : Prop :=
  (ops.map (fun o => o.id)).Nodup

/-- What C2 asserts of one operation line across a reprice call: a line of the
variant whose operation (owned by the caller) occurred at or after the
effective date gets the snapshot resolved from the new history at the
operation's own timestamp; a line occurring strictly before keeps its old
row; a line of another variant keeps its old row. -/
def C2LineRel (ops : List Operation) (hist2 : List PriceHistoryEntry)
    (u vid : Nat) (T : Int) (ol ol2 : OperationLine) : Prop :=
  (∀ o : Operation,
    ops.find? (fun o2 => decide (o2.id = ol.operation_id ∧ o2.user_id = u)) = some o →
    ol.variant_id = vid →
    ((T ≤ o.occurred_at →
        ∃ pr, latestHistoryPrice hist2 u vid o.occurred_at = some pr ∧
          ol2 = { ol with unit_price_snapshot := some pr }) ∧
     (o.occurred_at < T → ol2 = ol))) ∧
  (ol.variant_id ≠ vid → ol2 = ol)

/-- What C2 asserts of one stock posting across a reprice call. -/
def C2MovRel (ops : List Operation) (hist2 : List PriceHistoryEntry)
    (u vid : Nat) (T : Int) (sm sm2 : StockMovement) : Prop :=
  (∀ o : Operation,
    ops.find? (fun o2 => decide (o2.id = sm.operation_id ∧ o2.user_id = u)) = some o →
    sm.variant_id = vid → sm.user_id = u →
    ((T ≤ o.occurred_at →
        ∃ pr, latestHistoryPrice hist2 u vid o.occurred_at = some pr ∧
          sm2 = { sm with unit_price_snapshot := some pr }) ∧
     (o.occurred_at < T → sm2 = sm))) ∧
  (¬ (sm.variant_id = vid ∧ sm.user_id = u) → sm2 = sm)

/-- Fixture: a small concrete account used by the witness theorems. -/
def dbW : DB :=
  { nextId := 100,
    locations := [⟨10, 1, "Main", LocType.sales, none⟩, ⟨11, 1, "Sold", LocType.sold, none⟩,
                  ⟨12, 1, "Scrap", LocType.scrap, none⟩],
    counterparties := [⟨30, 1, "Alice"⟩],
    promo_codes := [],
    variants := [⟨20, 1, 1000, 500, false⟩, ⟨21, 1, 2000, 900, true⟩],
    operations := [],
    operation_lines := [],
    stock_movements := [],
    mark_codes := [],
    price_history := [⟨1, 20, 800, 50⟩] }

/-- Fixture: one unmarked line of three units of variant 20. -/
def lpPlain : LinePayload := ⟨20, some 3, none, none, none, none, none⟩

/-- Fixture: a transfer of variant 20 from location 10 to location 11. -/
def pTransferW : Payload :=
  ⟨OpType.transfer, some 200, some 10, some 11, none, none, none, none, none, none, none, none,
   [lpPlain]⟩

/-- Fixture: a transfer carrying a marked variant with too few codes. -/
def pBadCodesW : Payload :=
  ⟨OpType.transfer, some 200, some 10, some 11, none, none, none, none, none, none, none, none,
   [⟨21, some 3, none, none, none, none, some ["a", "b"]⟩]⟩

/-- Fixture: a sale of two marked units with their two codes. -/
def pSaleMarkedW : Payload :=
  ⟨OpType.sale, some 200, some 10, none, none, none, none, none, none, none, none, none,
   [⟨21, some 2, none, none, none, none, some ["a", "b"]⟩]⟩

/-- Fixture: an adjustment of variant 20 with an explicit delta of five. -/
def pAdjW : Payload :=
  ⟨OpType.adjustment, some 200, none, some 10, none, none, none, none, none, none, none, none,
   [⟨20, some 2, none, some 5, none, none, none⟩]⟩

/-- Fixture: a blogger shipment with a counterparty, destination left blank,
marking deferred on the marked-free line. -/
def pShipW : Payload :=
  ⟨OpType.ship_blogger, some 200, some 10, none, some 30, none, none, none, none, none, none, none,
   [⟨20, some 1, none, none, none, some true, none⟩]⟩

/-- Fixture: the account of `dbW` with one existing operation (id 90) and two
serialized units, one last touched by that operation. -/
def dbW4 : DB :=
  { dbW with
    operations := [⟨90, 1, OpType.inbound, 100, none, some 10, none, none, none, none, none,
                    none, none, none, none, none, none⟩],
    mark_codes := [⟨1, "z", some 21, some 10, MarkStatus.in_stock, some 90, 0⟩,
                   ⟨1, "w", some 21, some 10, MarkStatus.in_stock, some 77, 0⟩] }

/-- Fixture: the account of `dbW` with an operation, a line and a posting of
variant 20, for the reprice witness. -/
def dbW2 : DB :=
  { dbW with
    operations := [⟨90, 1, OpType.inbound, 300, none, some 10, none, none, none, none, none,
                    none, none, none, none, none, none⟩,
                   ⟨91, 1, OpType.inbound, 40, none, some 10, none, none, none, none, none,
                    none, none, none, none, none, none⟩],
    operation_lines := [⟨95, 90, 20, 2, some 800, some 500, none⟩,
                        ⟨96, 91, 20, 1, some 777, some 500, none⟩],
    stock_movements := [⟨1, 300, 90, 95, 20, 10, 2, some 500, some 800⟩,
                        ⟨1, 40, 91, 96, 20, 10, 1, some 500, some 777⟩] }

/-- The committed result of the C1 witness run. -/
def c1OutW : DB × Nat :=
  (create_operation dbW (some 1) 999 pTransferW).toOption.getD (dbW, 0)

/-- The committed result of the C2 witness run. -/
def c2OutW : DB × RepriceResult :=
  (apply_variant_price_from_date dbW2 (some 1) 999 (some 20) (some 1500) (some 100)).toOption.getD
    (dbW2, ⟨0, 0, 0, 0, 0⟩)

/-- The committed result of the first C3 witness shipment. -/
def c3Out1W : DB × Nat :=
  (create_operationM dbW (some 1) 999 pShipW).toOption.getD (dbW, 0)

/-- The committed result of the second C3 witness shipment. -/
def c3Out2W : DB × Nat :=
  (create_operationM c3Out1W.1 (some 1) 999 pShipW).toOption.getD (dbW, 0)

/-- The committed result of the C5 witness run. -/
def c5OutW : DB × Nat :=
  (create_operation dbW (some 1) 999 pSaleMarkedW).toOption.getD (dbW, 0)

/-- The committed result of the C6 witness run. -/
def c6OutW : DB × Nat :=
  (create_operation dbW (some 1) 998 pTransferW).toOption.getD (dbW, 0)

/-- The committed result of the C8 witness run (variant 21 has no history). -/
def c8OutW : DB × RepriceResult :=
  (apply_variant_price_from_date dbW (some 1) 999 (some 21) (some 2500) (some 100)).toOption.getD
    (dbW, ⟨0, 0, 0, 0, 0⟩)

/-- The committed result of the C9 witness run. -/
def c9OutW : DB × Nat :=
  (create_operation dbW (some 1) 999 pAdjW).toOption.getD (dbW, 0)

/-- The committed result of the C10 witness run. -/
def c10OutW : DB × Nat :=
  (update_operation dbW4 (some 1) 999 90 pTransferW).toOption.getD (dbW, 0)

theorem getOrCreateBloggerLocation_fields (db : DB) (u : Nat) :
    (getOrCreateBloggerLocation db u).1.variants = db.variants ∧
    (getOrCreateBloggerLocation db u).1.price_history = db.price_history ∧
    (getOrCreateBloggerLocation db u).1.mark_codes = db.mark_codes ∧
    (getOrCreateBloggerLocation db u).1.operations = db.operations ∧
    (getOrCreateBloggerLocation db u).1.operation_lines = db.operation_lines ∧
    (getOrCreateBloggerLocation db u).1.stock_movements = db.stock_movements := by
  unfold getOrCreateBloggerLocation
  split <;> simp

theorem resolveEndpoints_fields (db : DB) (u : Nat) (t : OpType) (fl tl : Option Nat) :
    (resolveEndpoints db u t fl tl).1.variants = db.variants ∧
    (resolveEndpoints db u t fl tl).1.price_history = db.price_history ∧
    (resolveEndpoints db u t fl tl).1.mark_codes = db.mark_codes ∧
    (resolveEndpoints db u t fl tl).1.operations = db.operations ∧
    (resolveEndpoints db u t fl tl).1.operation_lines = db.operation_lines ∧
    (resolveEndpoints db u t fl tl).1.stock_movements = db.stock_movements := by
  unfold resolveEndpoints
  dsimp only
  split_ifs <;>
    simp [getOrCreateBloggerLocation_fields, (getOrCreateBloggerLocation_fields _ u).1,
      (getOrCreateBloggerLocation_fields _ u).2.1]

theorem lineMarks_unmarked (u : Nat) (nowT : Int) (opId vid : Nat) (t : OpType)
    (fl tl : Option Nat) (deferred : Bool) (codes : List String) (qty : Int)
    (mcs : List MarkCode) :
    lineMarks u nowT opId vid t fl tl false deferred codes qty mcs = Except.ok mcs := by
  simp [lineMarks]

theorem lineMarks_deferred (u : Nat) (nowT : Int) (opId vid : Nat) (t : OpType)
    (fl tl : Option Nat) (marked : Bool) (codes : List String) (qty : Int)
    (mcs : List MarkCode) :
    lineMarks u nowT opId vid t fl tl marked true codes qty mcs = Except.ok mcs := by
  cases marked <;> simp [lineMarks]

theorem lineMarks_active (u : Nat) (nowT : Int) (opId vid : Nat) (t : OpType)
    (fl tl : Option Nat) (codes : List String) (qty : Int) (mcs : List MarkCode) :
    lineMarks u nowT opId vid t fl tl true false codes qty mcs =
      (if (codes.length : Int) ≠ qty then Except.error "mark codes count must equal qty"
       else if ¬ codes.Nodup then Except.error "mark codes must be unique"
       else Except.ok (codes.foldl
         (fun acc c => upsertMarkCode acc
           ⟨u, c, some vid, (markStatusFor t fl tl).2, (markStatusFor t fl tl).1,
            some opId, nowT⟩) mcs)) := by
  simp [lineMarks]

theorem processLine_ok_inv {u : Nat} {nowT occ : Int} {t : OpType} {fl tl : Option Nat}
    {opId : Nat} {db : DB} {lp : LinePayload} {db1 : DB}
    (h : processLine u nowT occ t fl tl opId db lp = Except.ok db1) :
    ∃ v movs mcs,
      0 < lp.qty.getD 0 ∧
      db.variants.find? (fun w => decide (w.id = lp.variant_id ∧ w.user_id = u)) = some v ∧
      lineMovements u occ opId db.nextId lp.variant_id t fl tl (lp.qty.getD 0) v.unit_cost
        (resolvePrice db.price_history u lp.variant_id occ lp.unit_price_snapshot v.unit_price)
        lp.qty_delta = Except.ok movs ∧
      lineMarks u nowT opId lp.variant_id t fl tl v.is_marked (lp.marking_not_handled.getD false)
        (lp.mark_codes.getD []) (lp.qty.getD 0) db.mark_codes = Except.ok mcs ∧
      db1 = { db with nextId := db.nextId + 1,
                      operation_lines := db.operation_lines ++
                        [⟨db.nextId, opId, lp.variant_id, lp.qty.getD 0,
                          some (resolvePrice db.price_history u lp.variant_id occ
                            lp.unit_price_snapshot v.unit_price),
                          some v.unit_cost,
                          markDeferredNote lp.line_note (lp.marking_not_handled.getD false)⟩],
                      stock_movements := db.stock_movements ++ movs,
                      mark_codes := mcs } := by
  unfold processLine at h
  dsimp only at h
  split at h
  · exact absurd h (by simp)
  · rename_i hqty
    split at h
    · exact absurd h (by simp)
    · rename_i v hv
      split at h
      · exact absurd h (by simp)
      · rename_i movs hmovs
        split at h
        · exact absurd h (by simp)
        · rename_i mcs hmcs
          simp only [Except.ok.injEq] at h
          exact ⟨v, movs, mcs, by omega, hv, hmovs, hmcs, h.symm⟩

theorem processLine_ok_fields {u : Nat} {nowT occ : Int} {t : OpType} {fl tl : Option Nat}
    {opId : Nat} {db : DB} {lp : LinePayload} {db1 : DB}
    (h : processLine u nowT occ t fl tl opId db lp = Except.ok db1) :
    db1.variants = db.variants ∧ db1.price_history = db.price_history ∧
    db1.operations = db.operations ∧ db1.locations = db.locations := by
  obtain ⟨v, movs, mcs, _, _, _, _, rfl⟩ := processLine_ok_inv h
  simp

theorem createHeaderState_fields (db : DB) (u : Nat) (nowT : Int) (p : Payload) :
    (createHeaderState db u nowT p).variants = db.variants ∧
    (createHeaderState db u nowT p).price_history = db.price_history ∧
    (createHeaderState db u nowT p).mark_codes = db.mark_codes ∧
    (createHeaderState db u nowT p).stock_movements = db.stock_movements ∧
    (createHeaderState db u nowT p).operation_lines = db.operation_lines := by
  have hf := resolveEndpoints_fields db u p.type p.from_location_id p.to_location_id
  exact ⟨hf.1, hf.2.1, hf.2.2.1, hf.2.2.2.2.2, hf.2.2.2.2.1⟩

theorem updateBaseState_fields (db : DB) (u : Nat) (nowT : Int) (opId : Nat) (p : Payload) :
    (updateBaseState db u nowT opId p).variants = db.variants ∧
    (updateBaseState db u nowT opId p).price_history = db.price_history ∧
    (updateBaseState db u nowT opId p).mark_codes =
      db.mark_codes.filter (fun m => decide (¬ m.last_operation_id = some opId)) ∧
    (updateBaseState db u nowT opId p).stock_movements =
      db.stock_movements.filter (fun m => decide (¬ m.operation_id = opId)) ∧
    (updateBaseState db u nowT opId p).operation_lines =
      db.operation_lines.filter (fun l => decide (¬ l.operation_id = opId)) := by
  have hf := resolveEndpoints_fields db u p.type p.from_location_id p.to_location_id
  refine ⟨hf.1, hf.2.1, ?_, ?_, ?_⟩
  · show List.filter _ (resolveEndpoints db u p.type p.from_location_id p.to_location_id).1.mark_codes = _
    rw [hf.2.2.1]
  · show List.filter _ (resolveEndpoints db u p.type p.from_location_id p.to_location_id).1.stock_movements = _
    rw [hf.2.2.2.2.2]
  · show List.filter _ (resolveEndpoints db u p.type p.from_location_id p.to_location_id).1.operation_lines = _
    rw [hf.2.2.2.2.1]

theorem processLines_err_of_badline {u : Nat} {nowT occ : Int} {t : OpType} {fl tl : Option Nat}
    {opId : Nat} {db : DB} {lines : List LinePayload} {lp : LinePayload}
    {vars : List Variant}
    (hmem : lp ∈ lines)
    (hdb : db.variants = vars)
    (hbad : ∀ db2 : DB, db2.variants = vars →
      ∀ db3, processLine u nowT occ t fl tl opId db2 lp ≠ Except.ok db3) :
    ∀ db4, processLines u nowT occ t fl tl opId db lines ≠ Except.ok db4 := by
  induction lines generalizing db with
  | nil => cases hmem
  | cons l0 rest ih =>
    intro db4 h
    rw [List.mem_cons] at hmem
    unfold processLines at h
    rcases hph : processLine u nowT occ t fl tl opId db l0 with e | db1
    · rw [hph] at h
      exact absurd h (by simp)
    · rw [hph] at h
      rcases hmem with rfl | hmem
      · exact hbad db hdb db1 hph
      · have hvars := (processLine_ok_fields hph).1
        exact ih hmem (hvars.trans hdb) db4 h

theorem processLine_badCodes_err {u : Nat} {nowT occ : Int} {t : OpType} {fl tl : Option Nat}
    {opId : Nat} {db : DB} {lp : LinePayload} {v : Variant}
    (hv : db.variants.find? (fun w => decide (w.id = lp.variant_id ∧ w.user_id = u)) = some v)
    (hm : v.is_marked = true)
    (hd : lp.marking_not_handled.getD false = false)
    (hbad : ((lp.mark_codes.getD []).length : Int) ≠ lp.qty.getD 0 ∨
      ¬ (lp.mark_codes.getD []).Nodup) :
    ∀ db3, processLine u nowT occ t fl tl opId db lp ≠ Except.ok db3 := by
  intro db3 h
  obtain ⟨v2, movs, mcs, hq, hv2, hmovs, hmcs, _⟩ := processLine_ok_inv h
  rw [hv] at hv2
  cases hv2
  rw [hm, hd, lineMarks_active] at hmcs
  split at hmcs
  · exact absurd hmcs (by simp)
  · rename_i hlen
    split at hmcs
    · exact absurd hmcs (by simp)
    · rename_i hdup
      rcases hbad with hb | hb
      · exact hlen hb
      · exact hdup hb

theorem create_operation_err_of_badline {db : DB} {u : Nat} {nowT : Int} {p : Payload}
    {lp : LinePayload}
    (hmem : lp ∈ p.lines)
    (hbad : ∀ (fl tl : Option Nat) (opId : Nat) (db2 : DB), db2.variants = db.variants →
      ∀ db3, processLine u nowT (p.occurred_at.getD nowT) p.type fl tl opId db2 lp ≠
        Except.ok db3) :
    ∀ r, create_operation db (some u) nowT p ≠ Except.ok r := by
  intro r h
  unfold create_operation at h
  dsimp only at h
  split at h
  · exact absurd h (by simp)
  · rename_i db3 hpl
    exact processLines_err_of_badline hmem (createHeaderState_fields db u nowT p).1
      (fun db2 hv2 db4 => hbad _ _ _ db2 hv2 db4) db3 hpl

/-- C4: submitting an operation containing a serialized, non-deferred line whose
code list length differs from the quantity, or whose codes repeat, fails as a
whole: the create call returns an error and the committed state is unchanged,
so no header, no lines and no postings survive the attempt. -/
theorem c4_code_mismatch_rejected (db : DB) (u : Nat) (nowT : Int) (p : Payload)
    (lp : LinePayload) (v : Variant)
    (hmem : lp ∈ p.lines)
    (hv : db.variants.find? (fun w => decide (w.id = lp.variant_id ∧ w.user_id = u)) = some v)
    (hm : v.is_marked = true)
    (hd : lp.marking_not_handled.getD false = false)
    (hbad : ((lp.mark_codes.getD []).length : Int) ≠ lp.qty.getD 0 ∨
      ¬ (lp.mark_codes.getD []).Nodup) :
    applyCreate db (some u) nowT p = db ∧
    ∀ r, create_operation db (some u) nowT p ≠ Except.ok r := by
  have herr : ∀ r, create_operation db (some u) nowT p ≠ Except.ok r :=
    create_operation_err_of_badline hmem
      (fun fl tl opId db2 hvars db3 =>
        processLine_badCodes_err (hvars ▸ hv) hm hd hbad db3)
  refine ⟨?_, herr⟩
  unfold applyCreate
  rcases hc : create_operation db (some u) nowT p with e | r
  · rfl
  · exact absurd hc (herr r)

theorem lineMarksU_inactive {u : Nat} {nowT : Int} {opId vid : Nat} {t : OpType}
    {fl tl : Option Nat} {marked deferred : Bool} {codes : List String} {qty : Int}
    {mcs : List MarkCode}
    (hcond : ¬ (marked = true ∧ ¬ deferred = true)) :
    lineMarksU u nowT opId vid t fl tl marked deferred codes qty mcs = Except.ok mcs := by
  unfold lineMarksU
  rw [if_neg hcond]

theorem processLineU_ok_inv {u : Nat} {nowT occ : Int} {t : OpType} {fl tl : Option Nat}
    {opId : Nat} {db : DB} {lp : LinePayload} {db1 : DB}
    (h : processLineU u nowT occ t fl tl opId db lp = Except.ok db1) :
    ∃ v movs,
      0 < lp.qty.getD 0 ∧
      db.variants.find? (fun w => decide (w.id = lp.variant_id ∧ w.user_id = u)) = some v ∧
      ¬ (v.is_marked = true ∧ lp.marking_not_handled.getD false = false) ∧
      lineMovements u occ opId db.nextId lp.variant_id t fl tl (lp.qty.getD 0) v.unit_cost
        (resolvePrice db.price_history u lp.variant_id occ lp.unit_price_snapshot v.unit_price)
        lp.qty_delta = Except.ok movs ∧
      db1 = { db with nextId := db.nextId + 1,
                      operation_lines := db.operation_lines ++
                        [⟨db.nextId, opId, lp.variant_id, lp.qty.getD 0,
                          some (resolvePrice db.price_history u lp.variant_id occ
                            lp.unit_price_snapshot v.unit_price),
                          some v.unit_cost,
                          markDeferredNote lp.line_note (lp.marking_not_handled.getD false)⟩],
                      stock_movements := db.stock_movements ++ movs } := by
  unfold processLineU at h
  dsimp only at h
  split at h
  · exact absurd h (by simp)
  · rename_i hqty
    split at h
    · exact absurd h (by simp)
    · rename_i v hv
      split at h
      · exact absurd h (by simp)
      · rename_i hcond
        have hcond2 : ¬ (v.is_marked = true ∧ lp.marking_not_handled.getD false = false) := by
          intro hc
          exact hcond ⟨hc.1, by simp [hc.2]⟩
        rw [lineMarksU_inactive hcond] at h
        split at h
        · exact absurd h (by simp)
        · rename_i movs hmovs
          simp only [Except.ok.injEq] at h
          exact ⟨v, movs, by omega, hv, hcond2, hmovs, h.symm⟩

theorem processLineU_ok_fields {u : Nat} {nowT occ : Int} {t : OpType} {fl tl : Option Nat}
    {opId : Nat} {db : DB} {lp : LinePayload} {db1 : DB}
    (h : processLineU u nowT occ t fl tl opId db lp = Except.ok db1) :
    db1.variants = db.variants ∧ db1.price_history = db.price_history ∧
    db1.operations = db.operations ∧ db1.locations = db.locations ∧
    db1.mark_codes = db.mark_codes := by
  obtain ⟨v, movs, _, _, _, _, rfl⟩ := processLineU_ok_inv h
  simp

theorem processLinesU_ok_marks {u : Nat} {nowT occ : Int} {t : OpType} {fl tl : Option Nat}
    {opId : Nat} {db : DB} {lines : List LinePayload} {db1 : DB}
    (h : processLinesU u nowT occ t fl tl opId db lines = Except.ok db1) :
    db1.mark_codes = db.mark_codes := by
  induction lines generalizing db with
  | nil =>
    unfold processLinesU at h
    simp only [Except.ok.injEq] at h
    rw [← h]
  | cons l0 rest ih =>
    unfold processLinesU at h
    rcases hph : processLineU u nowT occ t fl tl opId db l0 with e | db2
    · rw [hph] at h
      exact absurd h (by simp)
    · rw [hph] at h
      exact (ih h).trans (processLineU_ok_fields hph).2.2.2.2

theorem processLinesU_err_of_badline {u : Nat} {nowT occ : Int} {t : OpType} {fl tl : Option Nat}
    {opId : Nat} {db : DB} {lines : List LinePayload} {lp : LinePayload}
    {vars : List Variant}
    (hmem : lp ∈ lines)
    (hdb : db.variants = vars)
    (hbad : ∀ db2 : DB, db2.variants = vars →
      ∀ db3, processLineU u nowT occ t fl tl opId db2 lp ≠ Except.ok db3) :
    ∀ db4, processLinesU u nowT occ t fl tl opId db lines ≠ Except.ok db4 := by
  induction lines generalizing db with
  | nil => cases hmem
  | cons l0 rest ih =>
    intro db4 h
    rw [List.mem_cons] at hmem
    unfold processLinesU at h
    rcases hph : processLineU u nowT occ t fl tl opId db l0 with e | db1
    · rw [hph] at h
      exact absurd h (by simp)
    · rw [hph] at h
      rcases hmem with rfl | hmem
      · exact hbad db hdb db1 hph
      · have hvars := (processLineU_ok_fields hph).1
        exact ih hmem (hvars.trans hdb) db4 h

theorem processLineU_marked_err {u : Nat} {nowT occ : Int} {t : OpType} {fl tl : Option Nat}
    {opId : Nat} {db : DB} {lp : LinePayload} {v : Variant}
    (hv : db.variants.find? (fun w => decide (w.id = lp.variant_id ∧ w.user_id = u)) = some v)
    (hm : v.is_marked = true)
    (hd : lp.marking_not_handled.getD false = false) :
    ∀ db3, processLineU u nowT occ t fl tl opId db lp ≠ Except.ok db3 := by
  intro db3 h
  obtain ⟨v2, movs, hq, hv2, hcond, _, _⟩ := processLineU_ok_inv h
  rw [hv] at hv2
  cases hv2
  exact hcond ⟨hm, hd⟩

theorem update_operation_err_of_badline {db : DB} {u : Nat} {nowT : Int} {opId : Nat}
    {p : Payload} {lp : LinePayload}
    (hmem : lp ∈ p.lines)
    (hbad : ∀ (fl tl : Option Nat) (oid : Nat) (db2 : DB), db2.variants = db.variants →
      ∀ db3, processLineU u nowT (p.occurred_at.getD nowT) p.type fl tl oid db2 lp ≠
        Except.ok db3) :
    ∀ r, update_operation db (some u) nowT opId p ≠ Except.ok r := by
  intro r h
  unfold update_operation at h
  dsimp only at h
  split at h
  · exact absurd h (by simp)
  · split at h
    · exact absurd h (by simp)
    · rename_i db3 hpl
      exact processLinesU_err_of_badline hmem (updateBaseState_fields db u nowT opId p).1
        (fun db2 hv2 db4 => hbad _ _ _ db2 hv2 db4) db3 hpl

/-- C7: replacing an operation with a payload that contains a line whose
variant is serialized and whose marking is not explicitly deferred is
rejected: `update_operation` returns an error, and because the transaction
rolls back, the committed state keeps the original postings, lines and
serialized-unit records untouched. -/
theorem c7_replace_serialized_rejected (db : DB) (u : Nat) (nowT : Int) (opId : Nat)
    (p : Payload) (lp : LinePayload) (v : Variant)
    (hmem : lp ∈ p.lines)
    (hv : db.variants.find? (fun w => decide (w.id = lp.variant_id ∧ w.user_id = u)) = some v)
    (hm : v.is_marked = true)
    (hd : lp.marking_not_handled.getD false = false) :
    applyUpdate db (some u) nowT opId p = db ∧
    ∀ r, update_operation db (some u) nowT opId p ≠ Except.ok r := by
  have herr : ∀ r, update_operation db (some u) nowT opId p ≠ Except.ok r :=
    update_operation_err_of_badline hmem
      (fun fl tl oid db2 hvars db3 =>
        processLineU_marked_err (hvars ▸ hv) hm hd db3)
  refine ⟨?_, herr⟩
  unfold applyUpdate
  rcases hc : update_operation db (some u) nowT opId p with e | r
  · rfl
  · exact absurd hc (herr r)

theorem c7_witness :
    applyUpdate dbW4 (some 1) 999 90 pBadCodesW = dbW4 ∧
    ∀ r, update_operation dbW4 (some 1) 999 90 pBadCodesW ≠ Except.ok r :=
  c7_replace_serialized_rejected dbW4 1 999 90 pBadCodesW
    ⟨21, some 3, none, none, none, none, some ["a", "b"]⟩ ⟨21, 1, 2000, 900, true⟩
    (by decide) (by decide) (by decide) (by decide)

/-- C10: after every successful `update_operation`, the serialized-unit table
equals the old table with every record last touched by the updated operation
deleted: the guarded upsert branch never runs (its condition raised earlier in
the same loop), so no record is inserted or overwritten and no surviving
record references the operation as its last touch. -/
theorem c10_update_no_mark_refs (db : DB) (u : Nat) (nowT : Int) (opId : Nat) (p : Payload)
    (db2 : DB) (retId : Nat)
    (h : update_operation db (some u) nowT opId p = Except.ok (db2, retId)) :
    db2.mark_codes =
      db.mark_codes.filter (fun m => decide (¬ m.last_operation_id = some opId)) ∧
    ∀ m ∈ db2.mark_codes, m.last_operation_id ≠ some opId := by
  have hmc : db2.mark_codes =
      db.mark_codes.filter (fun m => decide (¬ m.last_operation_id = some opId)) := by
    unfold update_operation at h
    dsimp only at h
    split at h
    · exact absurd h (by simp)
    · split at h
      · exact absurd h (by simp)
      · rename_i db4 hpl
        simp only [Except.ok.injEq, Prod.mk.injEq] at h
        have hma := processLinesU_ok_marks hpl
        rw [h.1] at hma
        exact hma.trans (updateBaseState_fields db u nowT opId p).2.2.1

  refine ⟨hmc, ?_⟩
  intro m hm
  rw [hmc] at hm
  have := (List.mem_filter.mp hm).2
  simpa using this

theorem c10_witness :
    update_operation dbW4 (some 1) 999 90 pTransferW = Except.ok (c10OutW.1, c10OutW.2) ∧
    (c10OutW.1.mark_codes =
      dbW4.mark_codes.filter (fun m => decide (¬ m.last_operation_id = some 90)) ∧
    ∀ m ∈ c10OutW.1.mark_codes, m.last_operation_id ≠ some 90) :=
  ⟨rfl, c10_update_no_mark_refs dbW4 1 999 90 pTransferW c10OutW.1 c10OutW.2 rfl⟩

theorem lineMovements_twoPosting {u : Nat} {occ : Int} {opId lineId vid : Nat} {t : OpType}
    {fl tl : Option Nat} {qty cost price : Int} {qd : Option Int} {movs : List StockMovement}
    (htp : t ∈ twoPostingTypes)
    (h : lineMovements u occ opId lineId vid t fl tl qty cost price qd = Except.ok movs) :
    ∃ a b, movs = [a, b] ∧
      a.operation_id = opId ∧ b.operation_id = opId ∧
      a.operation_line_id = lineId ∧ b.operation_line_id = lineId ∧
      fl = some a.location_id ∧ tl = some b.location_id ∧
      a.qty_delta = -qty ∧ b.qty_delta = qty := by
  have hni : ¬ t = OpType.inbound := by
    rintro rfl
    simp [twoPostingTypes] at htp
  unfold lineMovements at h
  rw [if_neg hni, if_pos htp] at h
  rcases fl with _ | f
  · rcases tl with _ | l <;> simp at h
  · rcases tl with _ | l
    · simp at h
    · simp only [Except.ok.injEq] at h
      exact ⟨_, _, h.symm, rfl, rfl, rfl, rfl, rfl, rfl, rfl, rfl⟩

theorem processLines_twoPosting {u : Nat} {nowT occ : Int} {t : OpType} {fl tl : Option Nat}
    {opId : Nat} {db : DB} {lines : List LinePayload} {db1 : DB}
    (htp : t ∈ twoPostingTypes)
    (h : processLines u nowT occ t fl tl opId db lines = Except.ok db1) :
    ∃ ms : List (StockMovement × StockMovement),
      db1.stock_movements = db.stock_movements ++ (ms.map (fun q => [q.1, q.2])).flatten ∧
      List.Forall₂ (fun (q : StockMovement × StockMovement) (lp : LinePayload) =>
        q.1.operation_id = opId ∧ q.2.operation_id = opId ∧
        q.1.operation_line_id = q.2.operation_line_id ∧
        fl = some q.1.location_id ∧ tl = some q.2.location_id ∧
        q.1.qty_delta = -(lp.qty.getD 0) ∧ q.2.qty_delta = lp.qty.getD 0 ∧
        q.1.qty_delta + q.2.qty_delta = 0 ∧ 0 < lp.qty.getD 0) ms lines := by
  induction lines generalizing db with
  | nil =>
    unfold processLines at h
    simp only [Except.ok.injEq] at h
    exact ⟨[], by simp [← h], List.Forall₂.nil⟩
  | cons l0 rest ih =>
    unfold processLines at h
    rcases hph : processLine u nowT occ t fl tl opId db l0 with e | db2
    · rw [hph] at h
      simp at h
    · rw [hph] at h
      obtain ⟨v, movs, mcs, hq, hv, hmovs, hmcs, rfl⟩ := processLine_ok_inv hph
      obtain ⟨a, b, rfl, ha1, hb1, ha2, hb2, hfl, htl, had, hbd⟩ :=
        lineMovements_twoPosting htp hmovs
      obtain ⟨ms, hsm, hfa⟩ := ih h
      refine ⟨(a, b) :: ms, ?_, ?_⟩
      · rw [hsm]
        simp
      · exact List.Forall₂.cons
          ⟨ha1, hb1, ha2.trans hb2.symm, hfl, htl, had, hbd,
           by show a.qty_delta + b.qty_delta = 0; omega, hq⟩ hfa

theorem processLinesU_twoPosting {u : Nat} {nowT occ : Int} {t : OpType} {fl tl : Option Nat}
    {opId : Nat} {db : DB} {lines : List LinePayload} {db1 : DB}
    (htp : t ∈ twoPostingTypes)
    (h : processLinesU u nowT occ t fl tl opId db lines = Except.ok db1) :
    ∃ ms : List (StockMovement × StockMovement),
      db1.stock_movements = db.stock_movements ++ (ms.map (fun q => [q.1, q.2])).flatten ∧
      List.Forall₂ (fun (q : StockMovement × StockMovement) (lp : LinePayload) =>
        q.1.operation_id = opId ∧ q.2.operation_id = opId ∧
        q.1.operation_line_id = q.2.operation_line_id ∧
        fl = some q.1.location_id ∧ tl = some q.2.location_id ∧
        q.1.qty_delta = -(lp.qty.getD 0) ∧ q.2.qty_delta = lp.qty.getD 0 ∧
        q.1.qty_delta + q.2.qty_delta = 0 ∧ 0 < lp.qty.getD 0) ms lines := by
  induction lines generalizing db with
  | nil =>
    unfold processLinesU at h
    simp only [Except.ok.injEq] at h
    exact ⟨[], by simp [← h], List.Forall₂.nil⟩
  | cons l0 rest ih =>
    unfold processLinesU at h
    rcases hph : processLineU u nowT occ t fl tl opId db l0 with e | db2
    · rw [hph] at h
      simp at h
    · rw [hph] at h
      obtain ⟨v, movs, hq, hv, hcond, hmovs, rfl⟩ := processLineU_ok_inv hph
      obtain ⟨a, b, rfl, ha1, hb1, ha2, hb2, hfl, htl, had, hbd⟩ :=
        lineMovements_twoPosting htp hmovs
      obtain ⟨ms, hsm, hfa⟩ := ih h
      refine ⟨(a, b) :: ms, ?_, ?_⟩
      · rw [hsm]
        simp
      · exact List.Forall₂.cons
          ⟨ha1, hb1, ha2.trans hb2.symm, hfl, htl, had, hbd,
           by show a.qty_delta + b.qty_delta = 0; omega, hq⟩ hfa

/-- C1: for every successfully created or replaced operation of a
transfer-shaped type, each payload line yields exactly one balanced pair of
postings: minus the quantity at the resolved source and plus the quantity at
the resolved destination, so the two deltas of each line sum to zero. -/
theorem c1_twoPosting_balanced (db : DB) (u : Nat) (nowT : Int) (p : Payload)
    (db1 : DB) (opId : Nat) (base : List StockMovement)
    (htp : p.type ∈ twoPostingTypes)
    (hrun :
      (create_operation db (some u) nowT p = Except.ok (db1, opId) ∧
        base = db.stock_movements) ∨
      (update_operation db (some u) nowT opId p = Except.ok (db1, opId) ∧
        base = db.stock_movements.filter (fun m => decide (¬ m.operation_id = opId)))) :
    ∃ ms : List (StockMovement × StockMovement),
      db1.stock_movements = base ++ (ms.map (fun q => [q.1, q.2])).flatten ∧
      List.Forall₂ (fun (q : StockMovement × StockMovement) (lp : LinePayload) =>
        q.1.operation_id = opId ∧ q.2.operation_id = opId ∧
        q.1.operation_line_id = q.2.operation_line_id ∧
        (resolveEndpoints db u p.type p.from_location_id p.to_location_id).2.1 =
          some q.1.location_id ∧
        (resolveEndpoints db u p.type p.from_location_id p.to_location_id).2.2 =
          some q.2.location_id ∧
        q.1.qty_delta = -(lp.qty.getD 0) ∧ q.2.qty_delta = lp.qty.getD 0 ∧
        q.1.qty_delta + q.2.qty_delta = 0 ∧ 0 < lp.qty.getD 0) ms p.lines := by
  rcases hrun with ⟨h, hb⟩ | ⟨h, hb⟩
  · subst hb
    unfold create_operation at h
    dsimp only at h
    split at h
    · exact absurd h (by simp)
    · rename_i db3 hpl
      simp only [Except.ok.injEq, Prod.mk.injEq] at h
      obtain ⟨ms, hsm, hfa⟩ := processLines_twoPosting htp hpl
      rw [h.1, (createHeaderState_fields db u nowT p).2.2.2.1] at hsm
      rw [h.2] at hfa
      exact ⟨ms, hsm, hfa⟩
  · subst hb
    unfold update_operation at h
    dsimp only at h
    split at h
    · exact absurd h (by simp)
    · split at h
      · exact absurd h (by simp)
      · rename_i db4 hpl
        simp only [Except.ok.injEq, Prod.mk.injEq] at h
        obtain ⟨ms, hsm, hfa⟩ := processLinesU_twoPosting htp hpl
        rw [h.1, (updateBaseState_fields db u nowT opId p).2.2.2.1] at hsm
        exact ⟨ms, hsm, hfa⟩

theorem c1_witness :
    (create_operation dbW (some 1) 999 pTransferW = Except.ok (c1OutW.1, c1OutW.2) ∧
      dbW.stock_movements = dbW.stock_movements) ∧
    ∃ ms : List (StockMovement × StockMovement),
      c1OutW.1.stock_movements = dbW.stock_movements ++ (ms.map (fun q => [q.1, q.2])).flatten ∧
      List.Forall₂ (fun (q : StockMovement × StockMovement) (lp : LinePayload) =>
        q.1.operation_id = c1OutW.2 ∧ q.2.operation_id = c1OutW.2 ∧
        q.1.operation_line_id = q.2.operation_line_id ∧
        (resolveEndpoints dbW 1 pTransferW.type pTransferW.from_location_id
          pTransferW.to_location_id).2.1 = some q.1.location_id ∧
        (resolveEndpoints dbW 1 pTransferW.type pTransferW.from_location_id
          pTransferW.to_location_id).2.2 = some q.2.location_id ∧
        q.1.qty_delta = -(lp.qty.getD 0) ∧ q.2.qty_delta = lp.qty.getD 0 ∧
        q.1.qty_delta + q.2.qty_delta = 0 ∧ 0 < lp.qty.getD 0) ms pTransferW.lines :=
  ⟨⟨rfl, rfl⟩,
   c1_twoPosting_balanced dbW 1 999 pTransferW c1OutW.1 c1OutW.2 dbW.stock_movements
     (by decide) (Or.inl ⟨rfl, rfl⟩)⟩

theorem resolveEndpoints_adjustment (db : DB) (u : Nat) (fl tl : Option Nat) :
    resolveEndpoints db u OpType.adjustment fl tl = (db, fl, tl) := by
  simp [resolveEndpoints]

theorem lineMovements_adjustment {u : Nat} {occ : Int} {opId lineId vid : Nat}
    {fl tl : Option Nat} {qty cost price : Int} {qd : Option Int} {movs : List StockMovement}
    (h : lineMovements u occ opId lineId vid OpType.adjustment fl tl qty cost price qd =
      Except.ok movs) :
    ∃ loc, tl.orElse (fun _ => fl) = some loc ∧
      movs = [⟨u, occ, opId, lineId, vid, loc, qd.getD qty, some cost, some price⟩] ∧
      qd.getD qty ≠ 0 := by
  unfold lineMovements at h
  rw [if_neg (by decide), if_neg (by decide), if_pos rfl] at h
  dsimp only at h
  split at h
  · exact absurd h (by simp)
  · rename_i hz
    rcases tl with _ | l
    · rcases fl with _ | f
      · simp at h
      · simp only [Except.ok.injEq] at h
        exact ⟨f, rfl, h.symm, hz⟩
    · simp only [Except.ok.injEq] at h
      exact ⟨l, rfl, h.symm, hz⟩

theorem processLines_adjustment {u : Nat} {nowT occ : Int} {fl tl : Option Nat}
    {opId : Nat} {db : DB} {lines : List LinePayload} {db1 : DB}
    (h : processLines u nowT occ OpType.adjustment fl tl opId db lines = Except.ok db1) :
    ∃ ms : List StockMovement,
      db1.stock_movements = db.stock_movements ++ ms ∧
      List.Forall₂ (fun (m : StockMovement) (lp : LinePayload) =>
        m.operation_id = opId ∧
        tl.orElse (fun _ => fl) = some m.location_id ∧
        m.qty_delta = lp.qty_delta.getD (lp.qty.getD 0) ∧
        lp.qty_delta.getD (lp.qty.getD 0) ≠ 0 ∧ 0 < lp.qty.getD 0) ms lines := by
  induction lines generalizing db with
  | nil =>
    unfold processLines at h
    simp only [Except.ok.injEq] at h
    exact ⟨[], by simp [← h], List.Forall₂.nil⟩
  | cons l0 rest ih =>
    unfold processLines at h
    rcases hph : processLine u nowT occ OpType.adjustment fl tl opId db l0 with e | db2
    · rw [hph] at h
      simp at h
    · rw [hph] at h
      obtain ⟨v, movs, mcs, hq, hv, hmovs, hmcs, rfl⟩ := processLine_ok_inv hph
      obtain ⟨loc, hloc, rfl, hz⟩ := lineMovements_adjustment hmovs
      obtain ⟨ms, hsm, hfa⟩ := ih h
      refine ⟨⟨u, occ, opId, db.nextId, l0.variant_id, loc, l0.qty_delta.getD (l0.qty.getD 0),
        some v.unit_cost,
        some (resolvePrice db.price_history u l0.variant_id occ l0.unit_price_snapshot
          v.unit_price)⟩ :: ms, ?_, ?_⟩
      · rw [hsm]
        simp
      · exact List.Forall₂.cons ⟨rfl, hloc, rfl, hz, hq⟩ hfa

/-- C9: each line of a successfully created adjustment emits exactly one
posting whose signed delta is the caller-supplied `qty_delta` (defaulting to
the positive quantity) at whichever of destination/source is present, with the
destination preferred; a delta of exactly zero is never accepted, so every
line of a committed adjustment has a nonzero delta. -/
theorem c9_adjustment_single_posting (db : DB) (u : Nat) (nowT : Int) (p : Payload)
    (db1 : DB) (opId : Nat)
    (ht : p.type = OpType.adjustment)
    (hrun : create_operation db (some u) nowT p = Except.ok (db1, opId)) :
    ∃ ms : List StockMovement,
      db1.stock_movements = db.stock_movements ++ ms ∧
      List.Forall₂ (fun (m : StockMovement) (lp : LinePayload) =>
        m.operation_id = opId ∧
        p.to_location_id.orElse (fun _ => p.from_location_id) = some m.location_id ∧
        m.qty_delta = lp.qty_delta.getD (lp.qty.getD 0) ∧
        lp.qty_delta.getD (lp.qty.getD 0) ≠ 0 ∧ 0 < lp.qty.getD 0) ms p.lines := by
  unfold create_operation at hrun
  dsimp only at hrun
  split at hrun
  · exact absurd hrun (by simp)
  · rename_i db3 hpl
    simp only [Except.ok.injEq, Prod.mk.injEq] at hrun
    have hsm0 := (createHeaderState_fields db u nowT p).2.2.2.1
    rw [ht, resolveEndpoints_adjustment] at hpl
    dsimp only at hpl
    obtain ⟨ms, hsm, hfa⟩ := processLines_adjustment hpl
    rw [hrun.1, hsm0] at hsm
    have hop : (resolveEndpoints db u p.type p.from_location_id p.to_location_id).1.nextId =
        opId := hrun.2
    rw [ht, resolveEndpoints_adjustment] at hop
    rw [hop] at hfa
    exact ⟨ms, hsm, hfa⟩

theorem c9_witness :
    pAdjW.type = OpType.adjustment ∧
    create_operation dbW (some 1) 999 pAdjW = Except.ok (c9OutW.1, c9OutW.2) ∧
    ∃ ms : List StockMovement,
      c9OutW.1.stock_movements = dbW.stock_movements ++ ms ∧
      List.Forall₂ (fun (m : StockMovement) (lp : LinePayload) =>
        m.operation_id = c9OutW.2 ∧
        pAdjW.to_location_id.orElse (fun _ => pAdjW.from_location_id) = some m.location_id ∧
        m.qty_delta = lp.qty_delta.getD (lp.qty.getD 0) ∧
        lp.qty_delta.getD (lp.qty.getD 0) ≠ 0 ∧ 0 < lp.qty.getD 0) ms pAdjW.lines :=
  ⟨rfl, rfl, c9_adjustment_single_posting dbW 1 999 pAdjW c9OutW.1 c9OutW.2 rfl rfl⟩

theorem processLines_lines {u : Nat} {nowT occ : Int} {t : OpType} {fl tl : Option Nat}
    {opId : Nat} {db : DB} {lines : List LinePayload} {db1 : DB}
    (h : processLines u nowT occ t fl tl opId db lines = Except.ok db1) :
    ∃ nl : List OperationLine,
      db1.operation_lines = db.operation_lines ++ nl ∧
      List.Forall₂ (fun (ln : OperationLine) (lp : LinePayload) =>
        ∃ v, db.variants.find? (fun w => decide (w.id = lp.variant_id ∧ w.user_id = u)) =
            some v ∧
          ln.operation_id = opId ∧ ln.variant_id = lp.variant_id ∧
          ln.qty = lp.qty.getD 0 ∧
          ln.unit_price_snapshot = some (resolvePrice db.price_history u lp.variant_id occ
            lp.unit_price_snapshot v.unit_price) ∧
          ln.unit_cost_snapshot = some v.unit_cost) nl lines := by
  induction lines generalizing db with
  | nil =>
    unfold processLines at h
    simp only [Except.ok.injEq] at h
    exact ⟨[], by simp [← h], List.Forall₂.nil⟩
  | cons l0 rest ih =>
    unfold processLines at h
    rcases hph : processLine u nowT occ t fl tl opId db l0 with e | db2
    · rw [hph] at h
      simp at h
    · rw [hph] at h
      obtain ⟨v, movs, mcs, hq, hv, hmovs, hmcs, rfl⟩ := processLine_ok_inv hph
      obtain ⟨nl, hol, hfa⟩ := ih h
      refine ⟨(⟨db.nextId, opId, l0.variant_id, l0.qty.getD 0,
        some (resolvePrice db.price_history u l0.variant_id occ l0.unit_price_snapshot
          v.unit_price),
        some v.unit_cost,
        markDeferredNote l0.line_note (l0.marking_not_handled.getD false)⟩ : OperationLine)
        :: nl, ?_, ?_⟩
      · rw [hol]
        simp
      · exact List.Forall₂.cons ⟨v, hv, rfl, rfl, rfl, rfl, rfl⟩ hfa

/-- C6: each stored line of a successfully created operation snapshots the
first defined value among the line's explicit price override, the price of the
latest history entry of the variant effective at or before the operation's
timestamp, and the variant's live price. -/
theorem c6_price_resolution (db : DB) (u : Nat) (nowT : Int) (p : Payload)
    (db1 : DB) (opId : Nat)
    (hrun : create_operation db (some u) nowT p = Except.ok (db1, opId)) :
    ∃ nl : List OperationLine,
      db1.operation_lines = db.operation_lines ++ nl ∧
      List.Forall₂ (fun (ln : OperationLine) (lp : LinePayload) =>
        ∃ v, db.variants.find? (fun w => decide (w.id = lp.variant_id ∧ w.user_id = u)) =
            some v ∧
          ln.operation_id = opId ∧ ln.variant_id = lp.variant_id ∧
          ln.unit_price_snapshot = some
            (match lp.unit_price_snapshot with
             | some pr => pr
             | none =>
               match latestHistoryPrice db.price_history u lp.variant_id
                   (p.occurred_at.getD nowT) with
               | some pr => pr
               | none => v.unit_price)) nl p.lines := by
  unfold create_operation at hrun
  dsimp only at hrun
  split at hrun
  · exact absurd hrun (by simp)
  · rename_i db3 hpl
    simp only [Except.ok.injEq, Prod.mk.injEq] at hrun
    obtain ⟨nl, hol, hfa⟩ := processLines_lines hpl
    rw [hrun.1, (createHeaderState_fields db u nowT p).2.2.2.2] at hol
    rw [(createHeaderState_fields db u nowT p).1, (createHeaderState_fields db u nowT p).2.1,
      hrun.2] at hfa
    refine ⟨nl, hol, ?_⟩
    refine hfa.imp ?_
    intro ln lp hp
    obtain ⟨v, hv, h1, h2, _, h4, _⟩ := hp
    exact ⟨v, hv, h1, h2, h4⟩

theorem c6_witness :
    create_operation dbW (some 1) 998 pTransferW = Except.ok (c6OutW.1, c6OutW.2) ∧
    ∃ nl : List OperationLine,
      c6OutW.1.operation_lines = dbW.operation_lines ++ nl ∧
      List.Forall₂ (fun (ln : OperationLine) (lp : LinePayload) =>
        ∃ v, dbW.variants.find? (fun w => decide (w.id = lp.variant_id ∧ w.user_id = 1)) =
            some v ∧
          ln.operation_id = c6OutW.2 ∧ ln.variant_id = lp.variant_id ∧
          ln.unit_price_snapshot = some
            (match lp.unit_price_snapshot with
             | some pr => pr
             | none =>
               match latestHistoryPrice dbW.price_history 1 lp.variant_id
                   (pTransferW.occurred_at.getD 998) with
               | some pr => pr
               | none => v.unit_price)) nl pTransferW.lines :=
  ⟨rfl, c6_price_resolution dbW 1 998 pTransferW c6OutW.1 c6OutW.2 rfl⟩

theorem markKeys_upsert (mcs : List MarkCode) (mc : MarkCode) :
    markKeys (upsertMarkCode mcs mc) = markKeys mcs ∨
    (markKeys (upsertMarkCode mcs mc) = markKeys mcs ++ [(mc.user_id, mc.code)] ∧
      (mc.user_id, mc.code) ∉ markKeys mcs) := by
  unfold upsertMarkCode
  split
  · left
    unfold markKeys
    rw [List.map_map]
    apply List.map_congr_left
    intro m _
    by_cases hk : m.user_id = mc.user_id ∧ m.code = mc.code
    · simp [hk]
    · simp [hk]
  · rename_i hany
    right
    refine ⟨by simp [markKeys], ?_⟩
    intro hmem
    unfold markKeys at hmem
    rw [List.mem_map] at hmem
    obtain ⟨m, hm, he⟩ := hmem
    rw [Prod.mk.injEq] at he
    rw [List.any_eq_true] at hany
    exact hany ⟨m, hm, by rw [decide_eq_true_eq]; exact ⟨he.1, he.2⟩⟩

theorem markKeysNodup_upsert {mcs : List MarkCode} (mc : MarkCode)
    (h : MarkKeysNodup mcs) : MarkKeysNodup (upsertMarkCode mcs mc) := by
  rcases markKeys_upsert mcs mc with he | ⟨he, hnm⟩
  · unfold MarkKeysNodup
    rw [he]
    exact h
  · unfold MarkKeysNodup
    rw [he]
    simp only [List.nodup_append, List.nodup_cons, List.nodup_nil]
    exact ⟨h, by simp, by simpa using hnm⟩

theorem upsertMarkCode_exists_pres {mcs : List MarkCode} {u0 : Nat} {c0 : String}
    {st : MarkStatus} {loc : Option Nat} {opId : Nat} (mc : MarkCode)
    (hst : mc.status = st) (hloc : mc.current_location_id = loc)
    (hop : mc.last_operation_id = some opId)
    (hex : ∃ m ∈ mcs, m.user_id = u0 ∧ m.code = c0 ∧ m.status = st ∧
      m.current_location_id = loc ∧ m.last_operation_id = some opId) :
    ∃ m ∈ upsertMarkCode mcs mc, m.user_id = u0 ∧ m.code = c0 ∧ m.status = st ∧
      m.current_location_id = loc ∧ m.last_operation_id = some opId := by
  obtain ⟨m, hm, h1, h2, h3, h4, h5⟩ := hex
  unfold upsertMarkCode
  split
  · by_cases hk : m.user_id = mc.user_id ∧ m.code = mc.code
    · refine ⟨_, List.mem_map_of_mem _ hm, ?_⟩
      rw [if_pos hk]
      exact ⟨h1, h2, hst, hloc, hop⟩
    · refine ⟨_, List.mem_map_of_mem _ hm, ?_⟩
      rw [if_neg hk]
      exact ⟨h1, h2, h3, h4, h5⟩
  · exact ⟨m, List.mem_append_left _ hm, h1, h2, h3, h4, h5⟩

theorem upsertMarkCode_establish (mcs : List MarkCode) (mc : MarkCode) :
    ∃ m ∈ upsertMarkCode mcs mc, m.user_id = mc.user_id ∧ m.code = mc.code ∧
      m.status = mc.status ∧ m.current_location_id = mc.current_location_id ∧
      m.last_operation_id = mc.last_operation_id := by
  unfold upsertMarkCode
  split
  · rename_i hany
    rw [List.any_eq_true] at hany
    obtain ⟨m0, hm0, hp⟩ := hany
    rw [decide_eq_true_eq] at hp
    refine ⟨_, List.mem_map_of_mem _ hm0, ?_⟩
    rw [if_pos hp]
    exact ⟨hp.1, hp.2, rfl, rfl, rfl⟩
  · exact ⟨mc, List.mem_append_right _ (by simp), rfl, rfl, rfl, rfl, rfl⟩

theorem foldl_upsert_exists_pres {codes : List String} {u vid : Nat} {loc : Option Nat}
    {st : MarkStatus} {opId : Nat} {nowT : Int} {mcs : List MarkCode} {u0 : Nat} {c0 : String}
    (hex : ∃ m ∈ mcs, m.user_id = u0 ∧ m.code = c0 ∧ m.status = st ∧
      m.current_location_id = loc ∧ m.last_operation_id = some opId) :
    ∃ m ∈ codes.foldl
        (fun acc c => upsertMarkCode acc ⟨u, c, some vid, loc, st, some opId, nowT⟩) mcs,
      m.user_id = u0 ∧ m.code = c0 ∧ m.status = st ∧
      m.current_location_id = loc ∧ m.last_operation_id = some opId := by
  induction codes generalizing mcs with
  | nil => exact hex
  | cons c rest ih =>
    exact ih (upsertMarkCode_exists_pres _ rfl rfl rfl hex)

theorem foldl_upsert_exists {codes : List String} {u vid : Nat} {loc : Option Nat}
    {st : MarkStatus} {opId : Nat} {nowT : Int} {mcs : List MarkCode} {c0 : String}
    (hc : c0 ∈ codes) :
    ∃ m ∈ codes.foldl
        (fun acc c => upsertMarkCode acc ⟨u, c, some vid, loc, st, some opId, nowT⟩) mcs,
      m.user_id = u ∧ m.code = c0 ∧ m.status = st ∧
      m.current_location_id = loc ∧ m.last_operation_id = some opId := by
  induction codes generalizing mcs with
  | nil => cases hc
  | cons c rest ih =>
    rw [List.mem_cons] at hc
    rcases hc with rfl | hc
    · rw [List.foldl_cons]
      exact foldl_upsert_exists_pres
        (upsertMarkCode_establish mcs ⟨u, c0, some vid, loc, st, some opId, nowT⟩)
    · exact ih hc

theorem foldl_upsert_keysNodup {codes : List String} {u vid : Nat} {loc : Option Nat}
    {st : MarkStatus} {opId : Nat} {nowT : Int} {mcs : List MarkCode}
    (h : MarkKeysNodup mcs) :
    MarkKeysNodup (codes.foldl
      (fun acc c => upsertMarkCode acc ⟨u, c, some vid, loc, st, some opId, nowT⟩) mcs) := by
  induction codes generalizing mcs with
  | nil => exact h
  | cons c rest ih => exact ih (markKeysNodup_upsert _ h)

theorem lineMarks_ok_keysNodup {u : Nat} {nowT : Int} {opId vid : Nat} {t : OpType}
    {fl tl : Option Nat} {marked deferred : Bool} {codes : List String} {qty : Int}
    {mcs mcs2 : List MarkCode}
    (h : lineMarks u nowT opId vid t fl tl marked deferred codes qty mcs = Except.ok mcs2)
    (hk : MarkKeysNodup mcs) : MarkKeysNodup mcs2 := by
  unfold lineMarks at h
  split at h
  · split at h
    · simp only [Except.ok.injEq] at h
      rw [← h]
      exact hk
    · split at h
      · exact absurd h (by simp)
      · split at h
        · exact absurd h (by simp)
        · simp only [Except.ok.injEq] at h
          rw [← h]
          exact foldl_upsert_keysNodup hk
  · simp only [Except.ok.injEq] at h
    rw [← h]
    exact hk

theorem lineMarks_ok_exists_pres {u : Nat} {nowT : Int} {opId vid : Nat} {t : OpType}
    {fl tl : Option Nat} {marked deferred : Bool} {codes : List String} {qty : Int}
    {mcs mcs2 : List MarkCode} {u0 : Nat} {c0 : String}
    (h : lineMarks u nowT opId vid t fl tl marked deferred codes qty mcs = Except.ok mcs2)
    (hex : ∃ m ∈ mcs, m.user_id = u0 ∧ m.code = c0 ∧
      m.status = (markStatusFor t fl tl).1 ∧
      m.current_location_id = (markStatusFor t fl tl).2 ∧
      m.last_operation_id = some opId) :
    ∃ m ∈ mcs2, m.user_id = u0 ∧ m.code = c0 ∧
      m.status = (markStatusFor t fl tl).1 ∧
      m.current_location_id = (markStatusFor t fl tl).2 ∧
      m.last_operation_id = some opId := by
  unfold lineMarks at h
  split at h
  · split at h
    · simp only [Except.ok.injEq] at h
      rw [← h]
      exact hex
    · split at h
      · exact absurd h (by simp)
      · split at h
        · exact absurd h (by simp)
        · simp only [Except.ok.injEq] at h
          rw [← h]
          exact foldl_upsert_exists_pres hex
  · simp only [Except.ok.injEq] at h
    rw [← h]
    exact hex

theorem processLine_ok_marksQ {u : Nat} {nowT occ : Int} {t : OpType} {fl tl : Option Nat}
    {opId : Nat} {db : DB} {lp : LinePayload} {db1 : DB}
    (h : processLine u nowT occ t fl tl opId db lp = Except.ok db1) :
    (MarkKeysNodup db.mark_codes → MarkKeysNodup db1.mark_codes) ∧
    (∀ (u0 : Nat) (c0 : String),
      (∃ m ∈ db.mark_codes, m.user_id = u0 ∧ m.code = c0 ∧
        m.status = (markStatusFor t fl tl).1 ∧
        m.current_location_id = (markStatusFor t fl tl).2 ∧
        m.last_operation_id = some opId) →
      ∃ m ∈ db1.mark_codes, m.user_id = u0 ∧ m.code = c0 ∧
        m.status = (markStatusFor t fl tl).1 ∧
        m.current_location_id = (markStatusFor t fl tl).2 ∧
        m.last_operation_id = some opId) := by
  obtain ⟨v, movs, mcs, hq, hv, hmovs, hmcs, rfl⟩ := processLine_ok_inv h
  exact ⟨fun hk => lineMarks_ok_keysNodup hmcs hk,
         fun u0 c0 hex => lineMarks_ok_exists_pres hmcs hex⟩

theorem processLines_ok_marksQ {u : Nat} {nowT occ : Int} {t : OpType} {fl tl : Option Nat}
    {opId : Nat} {db : DB} {lines : List LinePayload} {db1 : DB}
    (h : processLines u nowT occ t fl tl opId db lines = Except.ok db1) :
    (MarkKeysNodup db.mark_codes → MarkKeysNodup db1.mark_codes) ∧
    (∀ (u0 : Nat) (c0 : String),
      (∃ m ∈ db.mark_codes, m.user_id = u0 ∧ m.code = c0 ∧
        m.status = (markStatusFor t fl tl).1 ∧
        m.current_location_id = (markStatusFor t fl tl).2 ∧
        m.last_operation_id = some opId) →
      ∃ m ∈ db1.mark_codes, m.user_id = u0 ∧ m.code = c0 ∧
        m.status = (markStatusFor t fl tl).1 ∧
        m.current_location_id = (markStatusFor t fl tl).2 ∧
        m.last_operation_id = some opId) := by
  induction lines generalizing db with
  | nil =>
    unfold processLines at h
    simp only [Except.ok.injEq] at h
    rw [← h]
    exact ⟨fun hk => hk, fun _ _ hex => hex⟩
  | cons l0 rest ih =>
    unfold processLines at h
    rcases hph : processLine u nowT occ t fl tl opId db l0 with e | db2
    · rw [hph] at h
      simp at h
    · rw [hph] at h
      have h1 := processLine_ok_marksQ hph
      have h2 := ih h
      exact ⟨fun hk => h2.1 (h1.1 hk), fun u0 c0 hex => h2.2 u0 c0 (h1.2 u0 c0 hex)⟩

theorem processLines_marked_line {u : Nat} {nowT occ : Int} {t : OpType} {fl tl : Option Nat}
    {opId : Nat} {db : DB} {lines : List LinePayload} {db1 : DB} {lp : LinePayload}
    {v : Variant}
    (hmem : lp ∈ lines)
    (h : processLines u nowT occ t fl tl opId db lines = Except.ok db1)
    (hv : db.variants.find? (fun w => decide (w.id = lp.variant_id ∧ w.user_id = u)) = some v)
    (hm : v.is_marked = true)
    (hd : lp.marking_not_handled.getD false = false) :
    (lp.mark_codes.getD []).Nodup ∧
    ((lp.mark_codes.getD []).length : Int) = lp.qty.getD 0 ∧
    ∀ c ∈ lp.mark_codes.getD [], ∃ m ∈ db1.mark_codes,
      m.user_id = u ∧ m.code = c ∧
      m.status = (markStatusFor t fl tl).1 ∧
      m.current_location_id = (markStatusFor t fl tl).2 ∧
      m.last_operation_id = some opId := by
  induction lines generalizing db with
  | nil => cases hmem
  | cons l0 rest ih =>
    unfold processLines at h
    rcases hph : processLine u nowT occ t fl tl opId db l0 with e | db2
    · rw [hph] at h
      simp at h
    · rw [hph] at h
      rw [List.mem_cons] at hmem
      rcases hmem with rfl | hmem
      · obtain ⟨v2, movs, mcs, hq, hv2, hmovs, hmcs, rfl⟩ := processLine_ok_inv hph
        rw [hv] at hv2
        cases hv2
        rw [hm, hd, lineMarks_active] at hmcs
        split at hmcs
        · exact absurd hmcs (by simp)
        · rename_i hlen
          split at hmcs
          · exact absurd hmcs (by simp)
          · rename_i hdup
            simp only [Except.ok.injEq] at hmcs
            refine ⟨not_not.mp hdup, not_ne_iff.mp hlen, ?_⟩
            intro c hc
            refine (processLines_ok_marksQ h).2 u c ?_
            rw [← hmcs]
            exact foldl_upsert_exists hc
      · have hf := processLine_ok_fields hph
        exact ih hmem h (by rw [hf.1]; exact hv)

/-- C5: for every successfully created operation line whose variant is
serialized and whose marking is not deferred, the code list passed validation
(distinct, exactly qty codes) and each code ends up upserted as a
serialized-unit record with the status and location the operation type
dictates and with this operation as its last touch; per-account key
uniqueness of the table is preserved. -/
theorem c5_mark_upsert_status (db : DB) (u : Nat) (nowT : Int) (p : Payload)
    (db1 : DB) (opId : Nat) (lp : LinePayload) (v : Variant)
    (hrun : create_operation db (some u) nowT p = Except.ok (db1, opId))
    (hmem : lp ∈ p.lines)
    (hv : db.variants.find? (fun w => decide (w.id = lp.variant_id ∧ w.user_id = u)) = some v)
    (hm : v.is_marked = true)
    (hd : lp.marking_not_handled.getD false = false)
    (hwf : MarkKeysNodup db.mark_codes) :
    MarkKeysNodup db1.mark_codes ∧
    (lp.mark_codes.getD []).Nodup ∧
    ((lp.mark_codes.getD []).length : Int) = lp.qty.getD 0 ∧
    ∀ c ∈ lp.mark_codes.getD [], ∃ m ∈ db1.mark_codes,
      m.user_id = u ∧ m.code = c ∧
      m.status = (markStatusFor p.type
        (resolveEndpoints db u p.type p.from_location_id p.to_location_id).2.1
        (resolveEndpoints db u p.type p.from_location_id p.to_location_id).2.2).1 ∧
      m.current_location_id = (markStatusFor p.type
        (resolveEndpoints db u p.type p.from_location_id p.to_location_id).2.1
        (resolveEndpoints db u p.type p.from_location_id p.to_location_id).2.2).2 ∧
      m.last_operation_id = some opId := by
  unfold create_operation at hrun
  dsimp only at hrun
  split at hrun
  · exact absurd hrun (by simp)
  · rename_i db3 hpl
    simp only [Except.ok.injEq, Prod.mk.injEq] at hrun
    have hflds := createHeaderState_fields db u nowT p
    have hml := processLines_marked_line hmem hpl (by rw [hflds.1]; exact hv) hm hd
    have hkq := processLines_ok_marksQ hpl
    rw [hrun.1] at hml hkq
    rw [hrun.2] at hml
    refine ⟨hkq.1 (by rw [hflds.2.2.1]; exact hwf), hml.1, hml.2.1, hml.2.2⟩

theorem c5_witness :
    create_operation dbW (some 1) 999 pSaleMarkedW = Except.ok (c5OutW.1, c5OutW.2) ∧
    (MarkKeysNodup c5OutW.1.mark_codes ∧
    ((⟨21, some 2, none, none, none, none, some ["a", "b"]⟩ :
        LinePayload).mark_codes.getD []).Nodup ∧
    (((⟨21, some 2, none, none, none, none, some ["a", "b"]⟩ :
        LinePayload).mark_codes.getD []).length : Int) =
      (⟨21, some 2, none, none, none, none, some ["a", "b"]⟩ : LinePayload).qty.getD 0 ∧
    ∀ c ∈ (⟨21, some 2, none, none, none, none, some ["a", "b"]⟩ :
        LinePayload).mark_codes.getD [], ∃ m ∈ c5OutW.1.mark_codes,
      m.user_id = 1 ∧ m.code = c ∧
      m.status = (markStatusFor pSaleMarkedW.type
        (resolveEndpoints dbW 1 pSaleMarkedW.type pSaleMarkedW.from_location_id
          pSaleMarkedW.to_location_id).2.1
        (resolveEndpoints dbW 1 pSaleMarkedW.type pSaleMarkedW.from_location_id
          pSaleMarkedW.to_location_id).2.2).1 ∧
      m.current_location_id = (markStatusFor pSaleMarkedW.type
        (resolveEndpoints dbW 1 pSaleMarkedW.type pSaleMarkedW.from_location_id
          pSaleMarkedW.to_location_id).2.1
        (resolveEndpoints dbW 1 pSaleMarkedW.type pSaleMarkedW.from_location_id
          pSaleMarkedW.to_location_id).2.2).2 ∧
      m.last_operation_id = some c5OutW.2) :=
  ⟨rfl, c5_mark_upsert_status dbW 1 999 pSaleMarkedW c5OutW.1 c5OutW.2
    ⟨21, some 2, none, none, none, none, some ["a", "b"]⟩ ⟨21, 1, 2000, 900, true⟩
    rfl (by decide) (by decide) (by decide) (by decide)
    (by show (markKeys dbW.mark_codes).Nodup; decide)⟩

theorem resolveEndpointsM_ship_nocp (db : DB) (u : Nat) (fl tl : Option Nat) :
    resolveEndpointsM db u OpType.ship_blogger fl tl none =
      Except.error "counterparty_id is required for ship_blogger" := by
  simp [resolveEndpointsM, resolveShipBloggerDestM]

theorem resolveEndpointsM_ship_resolve (db : DB) (u : Nat) (fl : Option Nat) (c : Nat) :
    resolveEndpointsM db u OpType.ship_blogger fl none (some c) =
      (match db.locations.find? (fun l =>
          decide (l.user_id = u ∧ l.type = LocType.blogger ∧ l.counterparty_id = some c)) with
       | some l => Except.ok (db, fl, some l.id)
       | none => Except.ok
          (({ db with
             nextId := db.nextId + 1
             locations := db.locations ++
               [⟨db.nextId, u,
                 "Блогер: " ++ (((db.counterparties.find? (fun k => decide (k.id = c))).map
                   (fun k => k.name)).getD "Без имени"),
                 LocType.blogger, some c⟩] } : DB), fl, some db.nextId)) := by
  rcases hf : db.locations.find? (fun l =>
      decide (l.user_id = u ∧ l.type = LocType.blogger ∧ l.counterparty_id = some c)) with _ | l
  · unfold resolveEndpointsM resolveShipBloggerDestM
    simp only [Bool.decide_and] at hf ⊢
    rw [hf]
    simp
  · unfold resolveEndpointsM resolveShipBloggerDestM
    simp only [Bool.decide_and] at hf ⊢
    rw [hf]
    simp

theorem processLineM_ok_fields {u : Nat} {nowT occ : Int} {t : OpType} {fl tl : Option Nat}
    {opId : Nat} {db : DB} {lp : LinePayload} {db1 : DB}
    (h : processLineM u nowT occ t fl tl opId db lp = Except.ok db1) :
    db1.locations = db.locations ∧ db1.operations = db.operations := by
  unfold processLineM at h
  dsimp only at h
  split at h
  · exact absurd h (by simp)
  · split at h
    · exact absurd h (by simp)
    · split at h
      · exact absurd h (by simp)
      · split at h
        · exact absurd h (by simp)
        · simp only [Except.ok.injEq] at h
          rw [← h]
          exact ⟨rfl, rfl⟩

theorem processLinesM_ok_fields {u : Nat} {nowT occ : Int} {t : OpType} {fl tl : Option Nat}
    {opId : Nat} {db : DB} {lines : List LinePayload} {db1 : DB}
    (h : processLinesM u nowT occ t fl tl opId db lines = Except.ok db1) :
    db1.locations = db.locations ∧ db1.operations = db.operations := by
  induction lines generalizing db with
  | nil =>
    unfold processLinesM at h
    simp only [Except.ok.injEq] at h
    rw [← h]
    exact ⟨rfl, rfl⟩
  | cons l0 rest ih =>
    unfold processLinesM at h
    rcases hph : processLineM u nowT occ t fl tl opId db l0 with e | db2
    · rw [hph] at h
      simp at h
    · rw [hph] at h
      have h1 := processLineM_ok_fields hph
      have h2 := ih h
      exact ⟨h2.1.trans h1.1, h2.2.trans h1.2⟩

/-- C3: in the part_001 version of `create_operation`, a blogger shipment
demands a counterparty (rejected without one); with the destination blank and
no blogger location tied to the counterparty yet, exactly one new blogger
location named after the counterparty is created and the new header points at
it; a second shipment to the same counterparty then reuses that location and
creates no further one. -/
theorem c3_ship_blogger_resolution (db : DB) (u : Nat) (nowT : Int) (p1 p2 : Payload)
    (c : Nat) (db1 : DB) (op1 : Nat) (db2 : DB) (op2 : Nat)
    (ht1 : p1.type = OpType.ship_blogger) (ht2 : p2.type = OpType.ship_blogger)
    (hc1 : p1.counterparty_id = some c) (hc2 : p2.counterparty_id = some c)
    (hd1 : p1.to_location_id = none) (hd2 : p2.to_location_id = none)
    (hnone : ∀ l ∈ db.locations,
      ¬ (l.user_id = u ∧ l.type = LocType.blogger ∧ l.counterparty_id = some c))
    (h1 : create_operationM db (some u) nowT p1 = Except.ok (db1, op1))
    (h2 : create_operationM db1 (some u) nowT p2 = Except.ok (db2, op2)) :
    (∀ q : Payload, q.type = OpType.ship_blogger → q.counterparty_id = none →
      ∀ r, create_operationM db (some u) nowT q ≠ Except.ok r) ∧
    db1.locations = db.locations ++
      [⟨db.nextId, u,
        "Блогер: " ++ (((db.counterparties.find? (fun k => decide (k.id = c))).map
          (fun k => k.name)).getD "Без имени"),
        LocType.blogger, some c⟩] ∧
    (∃ op : Operation, db1.operations = db.operations ++ [op] ∧ op.id = op1 ∧
      op.to_location_id = some db.nextId) ∧
    db2.locations = db1.locations ∧
    (∃ op : Operation, db2.operations = db1.operations ++ [op] ∧ op.id = op2 ∧
      op.to_location_id = some db.nextId) := by
  have hfind : db.locations.find? (fun l =>
      decide (l.user_id = u ∧ l.type = LocType.blogger ∧ l.counterparty_id = some c)) = none := by
    rw [List.find?_eq_none]
    intro x hx
    simpa using hnone x hx
  -- first call
  unfold create_operationM at h1
  dsimp only at h1
  rw [ht1, hc1, hd1, resolveEndpointsM_ship_resolve, hfind] at h1
  dsimp only at h1
  split at h1
  · exact absurd h1 (by simp)
  · rename_i db3 hpl1
    simp only [Except.ok.injEq, Prod.mk.injEq] at h1
    have hf1 := processLinesM_ok_fields hpl1
    rw [h1.1] at hf1
    have hB : db1.locations = db.locations ++
        [⟨db.nextId, u,
          "Блогер: " ++ (((db.counterparties.find? (fun k => decide (k.id = c))).map
            (fun k => k.name)).getD "Без имени"),
          LocType.blogger, some c⟩] := hf1.1
    -- second call
    unfold create_operationM at h2
    dsimp only at h2
    rw [ht2, hc2, hd2, resolveEndpointsM_ship_resolve] at h2
    have hfind2 : db1.locations.find? (fun l =>
        decide (l.user_id = u ∧ l.type = LocType.blogger ∧ l.counterparty_id = some c)) =
        some ⟨db.nextId, u,
          "Блогер: " ++ (((db.counterparties.find? (fun k => decide (k.id = c))).map
            (fun k => k.name)).getD "Без имени"),
          LocType.blogger, some c⟩ := by
      rw [hB, List.find?_append, hfind]
      simp
    rw [hfind2] at h2
    dsimp only at h2
    split at h2
    · exact absurd h2 (by simp)
    · rename_i db4 hpl2
      simp only [Except.ok.injEq, Prod.mk.injEq] at h2
      have hf2 := processLinesM_ok_fields hpl2
      rw [h2.1] at hf2
      refine ⟨?_, hB, ?_, hf2.1, ?_⟩
      · intro q hq hqc r hok
        unfold create_operationM at hok
        dsimp only at hok
        rw [hq, hqc, resolveEndpointsM_ship_nocp] at hok
        exact absurd hok (by simp)
      · refine ⟨_, hf1.2, ?_, ?_⟩
        · exact h1.2
        · rfl
      · refine ⟨_, hf2.2, ?_, ?_⟩
        · exact h2.2
        · rfl

theorem c3_witness :
    pShipW.type = OpType.ship_blogger ∧ pShipW.counterparty_id = some 30 ∧
    pShipW.to_location_id = none ∧
    create_operationM dbW (some 1) 999 pShipW = Except.ok (c3Out1W.1, c3Out1W.2) ∧
    create_operationM c3Out1W.1 (some 1) 999 pShipW = Except.ok (c3Out2W.1, c3Out2W.2) ∧
    ((∀ q : Payload, q.type = OpType.ship_blogger → q.counterparty_id = none →
      ∀ r, create_operationM dbW (some 1) 999 q ≠ Except.ok r) ∧
    c3Out1W.1.locations = dbW.locations ++
      [⟨dbW.nextId, 1,
        "Блогер: " ++ (((dbW.counterparties.find? (fun k => decide (k.id = 30))).map
          (fun k => k.name)).getD "Без имени"),
        LocType.blogger, some 30⟩] ∧
    (∃ op : Operation, c3Out1W.1.operations = dbW.operations ++ [op] ∧ op.id = c3Out1W.2 ∧
      op.to_location_id = some dbW.nextId) ∧
    c3Out2W.1.locations = c3Out1W.1.locations ∧
    (∃ op : Operation, c3Out2W.1.operations = c3Out1W.1.operations ++ [op] ∧
      op.id = c3Out2W.2 ∧ op.to_location_id = some dbW.nextId)) :=
  ⟨rfl, rfl, rfl, rfl, rfl,
   c3_ship_blogger_resolution dbW 1 999 pShipW pShipW 30 c3Out1W.1 c3Out1W.2
     c3Out2W.1 c3Out2W.2 rfl rfl rfl rfl rfl rfl (by decide) rfl rfl⟩

theorem upsertHistory_mem_of_ne {hist : List PriceHistoryEntry} {u vid : Nat} {price T : Int}
    {e : PriceHistoryEntry} (he : e ∈ hist)
    (hkey : ¬ (e.user_id = u ∧ e.variant_id = vid ∧ e.effective_at = T)) :
    e ∈ upsertHistory hist u vid price T := by
  unfold upsertHistory
  split
  · have hmm := List.mem_map_of_mem (fun h : PriceHistoryEntry =>
      if h.user_id = u ∧ h.variant_id = vid ∧ h.effective_at = T then
        { h with unit_price := price }
      else h) he
    dsimp only at hmm
    rw [if_neg hkey] at hmm
    exact hmm
  · exact List.mem_append_left _ he

theorem upsertHistory_exists (hist : List PriceHistoryEntry) (u vid : Nat) (price T : Int) :
    ∃ e ∈ upsertHistory hist u vid price T,
      e.user_id = u ∧ e.variant_id = vid ∧ e.effective_at = T := by
  unfold upsertHistory
  split
  · rename_i hany
    rw [List.any_eq_true] at hany
    obtain ⟨e0, he0, hp⟩ := hany
    rw [decide_eq_true_eq] at hp
    refine ⟨_, List.mem_map_of_mem _ he0, ?_⟩
    rw [if_pos hp]
    exact ⟨hp.1, hp.2.1, hp.2.2⟩
  · exact ⟨⟨u, vid, price, T⟩, List.mem_append_right _ (by simp), rfl, rfl, rfl⟩

/-- C8: repricing a variant that has no price history first seeds the history
with one entry at the epoch carrying the variant's current price (the entry's
price is the old live price whenever the new effective date is not itself the
epoch), so afterwards every timestamp from the epoch on has a history entry at
or before it and every historical record of the variant resolves a price. -/
theorem c8_seed_epoch_history (db : DB) (u : Nat) (nowT : Int) (vid : Nat) (P T : Int)
    (v : Variant) (db1 : DB) (res : RepriceResult)
    (hv : db.variants.find? (fun w => decide (w.id = vid ∧ w.user_id = u)) = some v)
    (hnone : db.price_history.any
      (fun h => decide (h.user_id = u ∧ h.variant_id = vid)) = false)
    (hrun : apply_variant_price_from_date db (some u) nowT (some vid) (some P) (some T) =
      Except.ok (db1, res)) :
    (∃ e ∈ db1.price_history, e.user_id = u ∧ e.variant_id = vid ∧
      e.effective_at = epochTs ∧ (T ≠ epochTs → e.unit_price = v.unit_price)) ∧
    (∀ t : Int, epochTs ≤ t → ∃ e ∈ db1.price_history,
      e.user_id = u ∧ e.variant_id = vid ∧ e.effective_at ≤ t) := by
  unfold apply_variant_price_from_date at hrun
  dsimp only at hrun
  split at hrun
  · exact absurd hrun (by simp)
  · rw [hv] at hrun
    dsimp only at hrun
    rw [if_neg (by rw [hnone]; exact Bool.false_ne_true)] at hrun
    simp only [Except.ok.injEq, Prod.mk.injEq] at hrun
    have hph : db1.price_history =
        upsertHistory (db.price_history ++ [⟨u, vid, v.unit_price, epochTs⟩]) u vid P T := by
      rw [← hrun.1]
    constructor
    · by_cases hte : T = epochTs
      · obtain ⟨e, he, hp1, hp2, hp3⟩ :=
          upsertHistory_exists (db.price_history ++ [⟨u, vid, v.unit_price, epochTs⟩]) u vid P T
        exact ⟨e, by rw [hph]; exact he, hp1, hp2, by rw [hp3, hte],
          fun hne => absurd hte hne⟩
      · refine ⟨⟨u, vid, v.unit_price, epochTs⟩, ?_, rfl, rfl, rfl, fun _ => rfl⟩
        rw [hph]
        refine upsertHistory_mem_of_ne (List.mem_append_right _ (by simp)) ?_
        intro hk
        exact hte (hk.2.2.symm)
    · intro t ht
      by_cases hte : T = epochTs
      · obtain ⟨e, he, hp1, hp2, hp3⟩ :=
          upsertHistory_exists (db.price_history ++ [⟨u, vid, v.unit_price, epochTs⟩]) u vid P T
        exact ⟨e, by rw [hph]; exact he, hp1, hp2, by rw [hp3, hte]; exact ht⟩
      · refine ⟨⟨u, vid, v.unit_price, epochTs⟩, ?_, rfl, rfl, ht⟩
        rw [hph]
        refine upsertHistory_mem_of_ne (List.mem_append_right _ (by simp)) ?_
        intro hk
        exact hte (hk.2.2.symm)

theorem c8_witness :
    dbW.variants.find? (fun w => decide (w.id = 21 ∧ w.user_id = 1)) =
      some ⟨21, 1, 2000, 900, true⟩ ∧
    dbW.price_history.any (fun h => decide (h.user_id = 1 ∧ h.variant_id = 21)) = false ∧
    apply_variant_price_from_date dbW (some 1) 999 (some 21) (some 2500) (some 100) =
      Except.ok (c8OutW.1, c8OutW.2) ∧
    ((∃ e ∈ c8OutW.1.price_history, e.user_id = 1 ∧ e.variant_id = 21 ∧
      e.effective_at = epochTs ∧ (100 ≠ epochTs → e.unit_price = 2000)) ∧
    (∀ t : Int, epochTs ≤ t → ∃ e ∈ c8OutW.1.price_history,
      e.user_id = 1 ∧ e.variant_id = 21 ∧ e.effective_at ≤ t)) :=
  ⟨by decide, by decide, rfl,
   c8_seed_epoch_history dbW 1 999 21 2500 100 ⟨21, 1, 2000, 900, true⟩ c8OutW.1 c8OutW.2
     (by decide) (by decide) rfl⟩

theorem bestEntry_none_iff {l : List PriceHistoryEntry} : bestEntry l = none ↔ l = [] := by
  cases l with
  | nil => simp [bestEntry]
  | cons h rest =>
    unfold bestEntry
    split
    · simp
    · split <;> simp

theorem bestEntry_max {l : List PriceHistoryEntry} {e : PriceHistoryEntry}
    (h : bestEntry l = some e) : ∀ x ∈ l, x.effective_at ≤ e.effective_at := by
  induction l generalizing e with
  | nil => simp [bestEntry] at h
  | cons h0 rest ih =>
    unfold bestEntry at h
    rcases hb : bestEntry rest with _ | b
    · rw [hb] at h
      dsimp only at h
      simp only [Option.some.injEq] at h
      subst h
      intro x hx
      rw [List.mem_cons] at hx
      rcases hx with rfl | hx
      · exact le_refl _
      · rw [bestEntry_none_iff] at hb
        rw [hb] at hx
        cases hx
    · rw [hb] at h
      dsimp only at h
      split at h
      · rename_i hlt
        simp only [Option.some.injEq] at h
        subst h
        intro x hx
        rw [List.mem_cons] at hx
        rcases hx with rfl | hx
        · exact le_of_lt hlt
        · exact ih hb x hx
      · rename_i hnlt
        simp only [Option.some.injEq] at h
        subst h
        intro x hx
        rw [List.mem_cons] at hx
        rcases hx with rfl | hx
        · exact le_refl _
        · exact le_trans (ih hb x hx) (not_lt.mp hnlt)

theorem latestHistoryPrice_isSome {hist : List PriceHistoryEntry} {u vid : Nat} {t : Int}
    (hex : ∃ e ∈ hist, e.user_id = u ∧ e.variant_id = vid ∧ e.effective_at ≤ t) :
    ∃ pr, latestHistoryPrice hist u vid t = some pr := by
  obtain ⟨e, he, h1, h2, h3⟩ := hex
  unfold latestHistoryPrice
  have hmf : e ∈ hist.filter
      (fun h => decide (h.user_id = u ∧ h.variant_id = vid ∧ h.effective_at ≤ t)) :=
    List.mem_filter.mpr ⟨he, by simp [h1, h2, h3]⟩
  rcases hb : bestEntry (hist.filter
      (fun h => decide (h.user_id = u ∧ h.variant_id = vid ∧ h.effective_at ≤ t))) with _ | b
  · rw [bestEntry_none_iff] at hb
    rw [hb] at hmf
    cases hmf
  · exact ⟨b.unit_price, rfl⟩

theorem find?_op_T {ops : List Operation} {oid u : Nat} {o : Operation} (T : Int)
    (hnd : OpIdsNodup ops)
    (h : ops.find? (fun o2 => decide (o2.id = oid ∧ o2.user_id = u)) = some o) :
    (T ≤ o.occurred_at →
      ops.find? (fun o2 => decide (o2.id = oid ∧ o2.user_id = u ∧ T ≤ o2.occurred_at)) =
        some o) ∧
    (o.occurred_at < T →
      ops.find? (fun o2 => decide (o2.id = oid ∧ o2.user_id = u ∧ T ≤ o2.occurred_at)) =
        none) := by
  unfold OpIdsNodup at hnd
  induction ops with
  | nil => simp at h
  | cons o0 rest ih =>
    rw [List.map_cons, List.nodup_cons] at hnd
    rw [List.find?_cons] at h
    by_cases hp : o0.id = oid ∧ o0.user_id = u
    · rw [show decide (o0.id = oid ∧ o0.user_id = u) = true from by simp [hp.1, hp.2]] at h
      dsimp only at h
      simp only [Option.some.injEq] at h
      subst h
      constructor
      · intro hT
        rw [List.find?_cons,
          show decide (o0.id = oid ∧ o0.user_id = u ∧ T ≤ o0.occurred_at) = true from by
            simp [hp.1, hp.2, hT]]
      · intro hlt
        rw [List.find?_cons,
          show decide (o0.id = oid ∧ o0.user_id = u ∧ T ≤ o0.occurred_at) = false from by
            simp only [decide_eq_false_iff_not]
            rintro ⟨-, -, hcc⟩
            omega]
        dsimp only
        rw [List.find?_eq_none]
        intro x hx
        simp only [decide_eq_true_eq]
        intro hc
        have hxm : x.id ∈ List.map (fun o2 => o2.id) rest :=
          List.mem_map_of_mem (fun o2 => o2.id) hx
        rw [hc.1, ← hp.1] at hxm
        exact hnd.1 hxm
    · rw [show decide (o0.id = oid ∧ o0.user_id = u) = false from by
        simp only [decide_eq_false_iff_not]; exact hp] at h
      dsimp only at h
      have ihh := ih hnd.2 h
      have hfalse : decide (o0.id = oid ∧ o0.user_id = u ∧ T ≤ o0.occurred_at) = false := by
        simp only [decide_eq_false_iff_not]
        rintro ⟨h1, h2, -⟩
        exact hp ⟨h1, h2⟩
      constructor
      · intro hT
        rw [List.find?_cons, hfalse]
        dsimp only
        exact ihh.1 hT
      · intro hlt
        rw [List.find?_cons, hfalse]
        dsimp only
        exact ihh.2 hlt

theorem forall₂_map_self {α β : Type} {R : α → β → Prop} {f : α → β} {l : List α}
    (h : ∀ x ∈ l, R x (f x)) : List.Forall₂ R l (l.map f) := by
  induction l with
  | nil => constructor
  | cons a rest ih =>
    exact List.Forall₂.cons (h a (by simp)) (ih fun x hx => h x (List.mem_cons_of_mem _ hx))

theorem c2_core {db : DB} {u vid : Nat} {T : Int} {hist2 : List PriceHistoryEntry}
    (hnd : OpIdsNodup db.operations)
    (hT : ∃ e ∈ hist2, e.user_id = u ∧ e.variant_id = vid ∧ e.effective_at = T) :
    List.Forall₂ (C2LineRel db.operations hist2 u vid T) db.operation_lines
      (db.operation_lines.map (lineRepriceUpdate db.operations hist2 u vid T)) ∧
    List.Forall₂ (C2MovRel db.operations hist2 u vid T) db.stock_movements
      (db.stock_movements.map (movementRepriceUpdate db.operations hist2 u vid T)) := by
  obtain ⟨e, he, he1, he2, he3⟩ := hT
  constructor
  · refine forall₂_map_self ?_
    intro ol _
    constructor
    · intro o hfo hvid
      have hful := find?_op_T T hnd hfo
      constructor
      · intro hT2
        have hex : ∃ pr, latestHistoryPrice hist2 u vid o.occurred_at = some pr :=
          latestHistoryPrice_isSome ⟨e, he, he1, he2, by rw [he3]; exact hT2⟩
        obtain ⟨pr, hpr⟩ := hex
        refine ⟨pr, hpr, ?_⟩
        unfold lineRepriceUpdate
        rw [if_pos hvid, hful.1 hT2]
        dsimp only
        rw [hpr]
      · intro hlt
        unfold lineRepriceUpdate
        rw [if_pos hvid, hful.2 hlt]
    · intro hne
      unfold lineRepriceUpdate
      rw [if_neg hne]
  · refine forall₂_map_self ?_
    intro sm _
    constructor
    · intro o hfo hvid huser
      have hful := find?_op_T T hnd hfo
      constructor
      · intro hT2
        have hex : ∃ pr, latestHistoryPrice hist2 u vid o.occurred_at = some pr :=
          latestHistoryPrice_isSome ⟨e, he, he1, he2, by rw [he3]; exact hT2⟩
        obtain ⟨pr, hpr⟩ := hex
        refine ⟨pr, hpr, ?_⟩
        unfold movementRepriceUpdate
        rw [if_pos ⟨hvid, huser⟩, hful.1 hT2]
        dsimp only
        rw [hpr]
      · intro hlt
        unfold movementRepriceUpdate
        rw [if_pos ⟨hvid, huser⟩, hful.2 hlt]
    · intro hne
      unfold movementRepriceUpdate
      rw [if_neg hne]

/-- C2: a successful reprice call rewrites, for every line and posting of the
variant whose (caller-owned) operation occurred at or after the effective
timestamp, the stored price snapshot to the price of the latest entry of the
rewritten history effective at or before that operation's own timestamp;
records of the variant occurring strictly before keep their old row, records
of other variants are untouched, and the returned counters are exactly the
number of line and posting rows matched by the rewrite conditions. -/
theorem c2_reprice_snapshots (db : DB) (u : Nat) (nowT : Int) (vid : Nat) (P T : Int)
    (db1 : DB) (res : RepriceResult)
    (hnd : OpIdsNodup db.operations)
    (hrun : apply_variant_price_from_date db (some u) nowT (some vid) (some P) (some T) =
      Except.ok (db1, res)) :
    List.Forall₂ (C2LineRel db.operations db1.price_history u vid T)
      db.operation_lines db1.operation_lines ∧
    List.Forall₂ (C2MovRel db.operations db1.price_history u vid T)
      db.stock_movements db1.stock_movements ∧
    res.recalculated_lines =
      (db.operation_lines.filter (lineRepriceCond db.operations u vid T)).length ∧
    res.recalculated_movements =
      (db.stock_movements.filter (movementRepriceCond db.operations u vid T)).length := by
  unfold apply_variant_price_from_date at hrun
  dsimp only at hrun
  split at hrun
  · exact absurd hrun (by simp)
  · split at hrun
    · exact absurd hrun (by simp)
    · rename_i v hv
      simp only [Except.ok.injEq, Prod.mk.injEq] at hrun
      have hph : db1.price_history =
          upsertHistory
            (if (db.price_history.any
                (fun h => decide (h.user_id = u ∧ h.variant_id = vid))) = true then
              db.price_history
            else db.price_history ++ [⟨u, vid, v.unit_price, epochTs⟩]) u vid P T := by
        rw [← hrun.1]
      have hol : db1.operation_lines =
          db.operation_lines.map
            (lineRepriceUpdate db.operations db1.price_history u vid T) := by
        rw [hph, ← hrun.1]
      have hsm : db1.stock_movements =
          db.stock_movements.map
            (movementRepriceUpdate db.operations db1.price_history u vid T) := by
        rw [hph, ← hrun.1]
      have hT : ∃ e ∈ db1.price_history,
          e.user_id = u ∧ e.variant_id = vid ∧ e.effective_at = T := by
        rw [hph]
        exact upsertHistory_exists _ u vid P T
      have hcore := c2_core hnd hT
      refine ⟨by rw [hol]; exact hcore.1, by rw [hsm]; exact hcore.2, ?_, ?_⟩
      · rw [← hrun.2, ← List.countP_eq_length_filter]
      · rw [← hrun.2, ← List.countP_eq_length_filter]

theorem c2_witness :
    OpIdsNodup dbW2.operations ∧
    apply_variant_price_from_date dbW2 (some 1) 999 (some 20) (some 1500) (some 100) =
      Except.ok (c2OutW.1, c2OutW.2) ∧
    (List.Forall₂ (C2LineRel dbW2.operations c2OutW.1.price_history 1 20 100)
      dbW2.operation_lines c2OutW.1.operation_lines ∧
    List.Forall₂ (C2MovRel dbW2.operations c2OutW.1.price_history 1 20 100)
      dbW2.stock_movements c2OutW.1.stock_movements ∧
    c2OutW.2.recalculated_lines =
      (dbW2.operation_lines.filter (lineRepriceCond dbW2.operations 1 20 100)).length ∧
    c2OutW.2.recalculated_movements =
      (dbW2.stock_movements.filter (movementRepriceCond dbW2.operations 1 20 100)).length) :=
  ⟨by show (dbW2.operations.map (fun o => o.id)).Nodup; decide, rfl,
   c2_reprice_snapshots dbW2 1 999 20 1500 100 c2OutW.1 c2OutW.2
     (by show (dbW2.operations.map (fun o => o.id)).Nodup; decide) rfl⟩

theorem c4_witness :
    applyCreate dbW (some 1) 999 pBadCodesW = dbW ∧
    ∀ r, create_operation dbW (some 1) 999 pBadCodesW ≠ Except.ok r :=
  c4_code_mismatch_rejected dbW 1 999 pBadCodesW
    ⟨21, some 3, none, none, none, none, some ["a", "b"]⟩ ⟨21, 1, 2000, 900, true⟩
    (by decide) (by decide) (by decide) (by decide) (Or.inl (by decide))

end Maiu
